import Mathlib

/-!
Verification development for the FCP multipath resource allocator
(`zvmsdk/database.py`, class `FCPDbOperator`).

The four SQLite tables (`fcp`, `template`, `template_sp_mapping`,
`template_fcp_mapping`) are embedded as lists of typed records; every SQL
statement issued by the operator is translated into the corresponding pure
list transformation.  Conventions used throughout:

* All identifier strings (fcp ids, template ids, storage-provider names) are
  assumed case-normalized; the `COLLATE NOCASE` column collation is therefore
  modelled by plain string equality.  The explicit `.upper()` calls that the
  source performs on `pchid` and `fcp_id` values at result boundaries are kept
  (modelled by `pyUpper`).
* A raised `SDKObjectNotExistError` / `SDKObjectAlreadyExistError` /
  `SDKConflictError` is modelled as `Except.error` with the corresponding
  `SDKErr` constructor; the `rs` reason code of `SDKConflictError` is carried
  so that distinct conflict sites stay distinguishable.  Because every mutator
  validates before issuing any UPDATE/DELETE/INSERT, an `Except.error` result
  leaves the database value unchanged, which models the transaction rollback.
* `random.choice(lst)` on a (provably) non-empty list is modelled by an index
  parameter supplied by the caller: element `lst[i % lst.length]`.  Any list
  member is reachable by a suitable index, so properties proved for all index
  parameters hold for every possible random outcome.
* The capacity snapshot `pchid_info` (a dict keyed by upper-case PCHID with
  `allocated`/`max` fields) is modelled as a total function from PCHID strings
  to a capacity record; the source would raise `KeyError` on a missing PCHID,
  a case outside every claim considered here.
-/

/-- Error kinds raised by `FCPDbOperator`.  `conflict rs` carries the `rs`
reason code passed to `SDKConflictError` at the raise site. -/
inductive SDKErr where
  | notFound : SDKErr
  | alreadyExists : SDKErr
  | conflict : Nat → SDKErr
deriving DecidableEq

/-- One row of the `fcp` table (schema in `FCPDbOperator._initialize_table`). -/
structure FcpRec where
  fcp_id : String
  assigner_id : String := ""
  connections : Int := 0
  reserved : Int := 0
  wwpn_npiv : String := ""
  wwpn_phy : String := ""
  chpid : String := ""
  pchid : String := ""
  state : String := ""
  owner : String := ""
  tmpl_id : String := ""
deriving DecidableEq

/-- One row of the `template` table. -/
structure TemplateRec where
  id : String
  name : String := ""
  description : String := ""
  is_default : Bool := false
  min_fcp_paths_count : Int := -1
deriving DecidableEq

/-- One row of the `template_sp_mapping` table. -/
structure TemplateSpRec where
  sp_name : String
  tmpl_id : String
deriving DecidableEq

/-- One row of the `template_fcp_mapping` table. -/
structure TemplateFcpRec where
  fcp_id : String
  tmpl_id : String
  path : Nat
deriving DecidableEq

/-- The FCP database: the four tables owned by `FCPDbOperator`. -/
structure DB where
  fcp : List FcpRec := []
  template : List TemplateRec := []
  template_sp_mapping : List TemplateSpRec := []
  template_fcp_mapping : List TemplateFcpRec := []
deriving DecidableEq

/-- `UPDATE fcp SET reserved=0, tmpl_id='' WHERE fcp_id=?` (one id). -/
def unreserveOne (fcp_id : String) (r : FcpRec) : FcpRec :=
  if r.fcp_id = fcp_id then { r with reserved := 0, tmpl_id := "" } else r

/-- `FCPDbOperator.unreserve_fcps`: for each listed id, set `reserved` to 0 and
`tmpl_id` to the empty string; a no-op on the empty list. -/
def unreserve_fcps (db : DB) (fcp_ids : List String) : DB :=
  if fcp_ids = [] then db
  else { db with
    fcp := fcp_ids.foldl (fun tbl i => tbl.map (unreserveOne i)) db.fcp }

/-- `UPDATE fcp SET reserved=1, assigner_id=?, tmpl_id=? WHERE fcp_id=?`. -/
def reserveOne (assigner_id fcp_template_id fcp_id : String) (r : FcpRec) :
    FcpRec :=
  if r.fcp_id = fcp_id then
    { r with reserved := 1, assigner_id := assigner_id,
             tmpl_id := fcp_template_id }
  else r

/-- `FCPDbOperator.reserve_fcps`: for each listed id, set `reserved` to 1 and
assign `assigner_id` and `tmpl_id`. -/
def reserve_fcps (db : DB) (fcp_ids : List String)
    (assigner_id fcp_template_id : String) : DB :=
  { db with
    fcp := fcp_ids.foldl
      (fun tbl i => tbl.map (reserveOne assigner_id fcp_template_id i))
      db.fcp }

/-- `FCPDbOperator.decrease_connections`.  Raises `NotFound` when the device is
absent, and also (`'FCP with id: %s no connections in DB.'`) when its
`connections` counter is already 0; otherwise decrements the counter by 1,
clamps a negative result to 0, stores it and returns the re-read value. -/
def decrease_connections (db : DB) (fcp : String) :
    Except SDKErr (DB × Int) :=
  match db.fcp.find? (fun r => r.fcp_id = fcp) with
  | none => .error .notFound
  | some row =>
    if row.connections = 0 then .error .notFound
    else
      let connections := row.connections - 1
      let connections := if connections < 0 then 0 else connections
      let fcpTbl := db.fcp.map (fun r =>
        if r.fcp_id = fcp then { r with connections := connections } else r)
      -- re-read of the row just updated; the row is present, so the
      -- fallback branch is unreachable
      match fcpTbl.find? (fun r => r.fcp_id = fcp) with
      | some r2 => .ok ({ db with fcp := fcpTbl }, r2.connections)
      | none => .error .notFound

/-- `FCPDbOperator.increase_connections_by_assigner`.  The lookup matches on
both `fcp_id` and `assigner_id`; on a match the counter is incremented by 1,
stored, and the re-read value returned. -/
def increase_connections_by_assigner (db : DB) (fcp assigner_id : String) :
    Except SDKErr (DB × Int) :=
  match db.fcp.find? (fun r => r.fcp_id = fcp ∧ r.assigner_id = assigner_id)
  with
  | none => .error .notFound
  | some row =>
    let connections := row.connections + 1
    let fcpTbl := db.fcp.map (fun r =>
      if r.fcp_id = fcp ∧ r.assigner_id = assigner_id then
        { r with connections := connections }
      else r)
    -- re-read matches on fcp_id only
    match fcpTbl.find? (fun r => r.fcp_id = fcp) with
    | some r2 => .ok ({ db with fcp := fcpTbl }, r2.connections)
    | none => .error .notFound

/-- `FCPDbOperator.fcp_template_exist_in_db`. -/
def fcp_template_exist_in_db (db : DB) (fcp_template_id : String) : Bool :=
  db.template.any (fun t => t.id = fcp_template_id)

/-- `FCPDbOperator.get_inuse_fcp_device_by_fcp_template`: ids of the devices
whose allocation provenance (`fcp.tmpl_id`) is the given template. -/
def get_inuse_fcp_device_by_fcp_template (db : DB) (fcp_template_id : String) :
    List String :=
  (db.fcp.filter (fun r => r.tmpl_id = fcp_template_id)).map (fun r => r.fcp_id)

/-- `FCPDbOperator.delete_fcp_template`: `NotFound` when the template is
absent, `Conflict` (rs=22) when any device is still allocated from it,
otherwise delete its rows from `template`, `template_sp_mapping` and
`template_fcp_mapping` in one transaction. -/
def delete_fcp_template (db : DB) (template_id : String) : Except SDKErr DB :=
  if ¬ fcp_template_exist_in_db db template_id then .error .notFound
  else if get_inuse_fcp_device_by_fcp_template db template_id ≠ [] then
    .error (.conflict 22)
  else .ok { db with
    template := db.template.filter (fun t => t.id ≠ template_id),
    template_sp_mapping :=
      db.template_sp_mapping.filter (fun s => s.tmpl_id ≠ template_id),
    template_fcp_mapping :=
      db.template_fcp_mapping.filter (fun m => m.tmpl_id ≠ template_id) }

/-- `FCPDbOperator.sp_name_exist_in_db`. -/
def sp_name_exist_in_db (db : DB) (sp_name : String) : Bool :=
  db.template_sp_mapping.any (fun s => s.sp_name = sp_name)

/-- `FCPDbOperator.create_fcp_template`.  The device list is taken already
expanded into per-path sets (the `fcp_devices_by_path` dict of the source).
A Python-falsy `min_fcp_paths_count` (absent or 0) makes the INSERT omit the
column, so the schema default -1 is stored. -/
def create_fcp_template (db : DB) (fcp_template_id name description : String)
    (fcp_devices_by_path : List (Nat × List String)) (host_default : Bool)
    (default_sp_list : List String) (min_fcp_paths_count : Option Int) :
    Except SDKErr DB :=
  if fcp_template_exist_in_db db fcp_template_id then .error .alreadyExists
  else
    let sp_mapping_to_add :=
      default_sp_list.filter (fun sp => ¬ sp_name_exist_in_db db sp)
    let sp_mapping_to_update :=
      default_sp_list.filter (fun sp => sp_name_exist_in_db db sp)
    let fcp_mapping := fcp_devices_by_path.flatMap (fun pd =>
      pd.2.map (fun fcp_id => TemplateFcpRec.mk fcp_id fcp_template_id pd.1))
    let tmplTbl :=
      if host_default = true then
        db.template.map (fun t => { t with is_default := false })
      else db.template
    let storedMin : Int :=
      match min_fcp_paths_count with
      | none => -1
      | some v => if v = 0 then -1 else v
    let newTmpl : TemplateRec :=
      { id := fcp_template_id, name := name, description := description,
        is_default := host_default, min_fcp_paths_count := storedMin }
    let spTbl := db.template_sp_mapping.map (fun s =>
      if sp_mapping_to_update.contains s.sp_name then
        { s with tmpl_id := fcp_template_id }
      else s)
    let spTbl := spTbl ++ sp_mapping_to_add.map (fun sp =>
      TemplateSpRec.mk sp fcp_template_id)
    .ok { db with
      template := tmplTbl ++ [newTmpl],
      template_fcp_mapping := db.template_fcp_mapping ++ fcp_mapping,
      template_sp_mapping := spTbl }

/-- `FCPDbOperator.get_path_count`: number of DISTINCT path values of the
template in `template_fcp_mapping`. -/
def get_path_count (db : DB) (fcp_template_id : String) : Nat :=
  (((db.template_fcp_mapping.filter
      (fun m => m.tmpl_id = fcp_template_id)).map (fun m => m.path)).dedup).length

/-- `FCPDbOperator.get_min_fcp_paths_count_from_db`. -/
def get_min_fcp_paths_count_from_db (db : DB) (fcp_template_id : String) :
    Option Int :=
  (db.template.find? (fun t => t.id = fcp_template_id)).map
    (fun t => t.min_fcp_paths_count)

/-- `FCPDbOperator.get_min_fcp_paths_count`: the stored value, with the -1
sentinel replaced by the template's total configured path count; raises
`NotFound` when the value cannot be determined (falsy template id, or no
template row). -/
def get_min_fcp_paths_count (db : DB) (fcp_template_id : String) :
    Except SDKErr Int :=
  if fcp_template_id = "" then .error .notFound
  else
    match get_min_fcp_paths_count_from_db db fcp_template_id with
    | none => .error .notFound
    | some v =>
      if v = -1 then .ok (get_path_count db fcp_template_id) else .ok v

/-- `FCPDbOperator._validate_min_fcp_paths_count` (the Python truthiness tests
on `min_fcp_paths_count` and `fcp_devices` are kept: a value of 0 or an absent
argument skips that side of the computation). -/
def validate_min_fcp_paths_count (db : DB)
    (fcp_devices : Option (List (Nat × List String)))
    (min_fcp_paths_count : Option Int) (fcp_template_id : String) :
    Except SDKErr Unit :=
  let minTruthy : Bool := match min_fcp_paths_count with
    | none => false
    | some v => v ≠ 0
  let devTruthy : Bool := match fcp_devices with
    | none => false
    | some l => l ≠ []
  if minTruthy ∨ devTruthy then
    let fcp_devices_path_count : Nat :=
      match fcp_devices with
      | none => get_path_count db fcp_template_id
      | some l => if l = [] then get_path_count db fcp_template_id
                  else l.length
    let minCount : Int :=
      match min_fcp_paths_count with
      | none => (get_min_fcp_paths_count_from_db db fcp_template_id).getD 0
      | some v =>
        if v = 0 then
          (get_min_fcp_paths_count_from_db db fcp_template_id).getD 0
        else v
    if minCount > (fcp_devices_path_count : Int) then
      .error (.conflict 23)
    else .ok ()
  else .ok ()

/-- Last-occurrence association lookup: models a Python dict built by
iterating a list of key/value pairs, where a later binding overwrites an
earlier one. -/
def lookupLast (l : List (String × Nat)) (k : String) : Option Nat :=
  (l.reverse.find? (fun kv => kv.1 = k)).map (fun kv => kv.2)

/-- Keys of the `fcp_in_db` dict of `edit_fcp_template`: the fcp ids mapped to
the template in `template_fcp_mapping` (from `get_fcp_templates_details`). -/
def editDbKeys (db : DB) (fcp_template_id : String) : List String :=
  (((db.template_fcp_mapping.filter (fun m => m.tmpl_id = fcp_template_id)).map
    (fun m => m.fcp_id)).dedup)

/-- The `del_set` of `edit_fcp_template`: devices of the template that are
missing from the new device list. -/
def editDelSet (db : DB) (fcp_template_id : String)
    (devs : List (Nat × List String)) : List String :=
  let inputKeys := (devs.flatMap (fun pd => pd.2)).dedup
  (editDbKeys db fcp_template_id).filter (fun d => ¬ inputKeys.contains d)

/-- The `not_allow_for_del` set of `edit_fcp_template` after both filters:
devices missing from the new list that are in use (non-zero `connections` or
`reserved`) AND whose allocation provenance is this very template. -/
def editDelConflictSet (db : DB) (fcp_template_id : String)
    (devs : List (Nat × List String)) : List String :=
  let inUse := (editDelSet db fcp_template_id devs).filter (fun d =>
    match db.fcp.find? (fun f => f.fcp_id = d) with
    | none => false
    | some f => f.connections ≠ 0 ∨ f.reserved ≠ 0)
  inUse.filter (fun d =>
    (get_inuse_fcp_device_by_fcp_template db fcp_template_id).contains d)

/-- The `template_fcp_mapping` table produced by the device-list branch of
`edit_fcp_template`: delete the omitted devices, insert the new devices with
their paths, then update the path of every kept device whose path changed. -/
def editMapResult (db : DB) (tid : String) (devs : List (Nat × List String)) :
    List TemplateFcpRec :=
  let fcp_from_input := devs.flatMap (fun pd =>
    pd.2.map (fun fcp_id => (fcp_id, pd.1)))
  let inputKeys := (devs.flatMap (fun pd => pd.2)).dedup
  let dbKeys := editDbKeys db tid
  let add_set := inputKeys.filter (fun d => ¬ dbKeys.contains d)
  let inter_set := inputKeys.filter (fun d => dbKeys.contains d)
  let del_set := editDelSet db tid devs
  let afterDel := db.template_fcp_mapping.filter (fun m =>
    ¬ (m.tmpl_id = tid ∧ del_set.contains m.fcp_id))
  let afterIns := afterDel ++ add_set.filterMap (fun d =>
    (lookupLast fcp_from_input d).map (fun p => TemplateFcpRec.mk d tid p))
  afterIns.map (fun m =>
    if m.tmpl_id = tid ∧ inter_set.contains m.fcp_id then
      match lookupLast fcp_from_input m.fcp_id with
      | some p => if p ≠ m.path then { m with path := p } else m
      | none => m
    else m)

/-- `FCPDbOperator.edit_fcp_template`.  The `fcp_devices` path specification
is taken already expanded into per-path device lists (the expansion helper
`utils.expand_fcp_list` is outside the embedded module; the source's
path-count-from-input equals the number of per-path groups).  An argument of
`none` means "leave unchanged".  The informational return dict (template
details plus PCHID diff) is derived by read-only queries and is omitted: the
function returns the updated database. -/
def edit_fcp_template (db : DB) (fcp_template_id : String)
    (name description : Option String)
    (fcp_devices : Option (List (Nat × List String)))
    (host_default : Option Bool) (default_sp_list : Option (List String))
    (min_fcp_paths_count : Option Int) : Except SDKErr DB := do
  if ¬ fcp_template_exist_in_db db fcp_template_id then
    throw .notFound
  -- validate: adding or deleting a whole path
  (match fcp_devices with
   | none => Except.ok ()
   | some devs =>
     if devs.length ≠ get_path_count db fcp_template_id then
       if get_inuse_fcp_device_by_fcp_template db fcp_template_id ≠ [] then
         throw (.conflict 24)
       else Except.ok ()
     else Except.ok ())
  -- validate: min_fcp_paths_count must not exceed the resulting path count
  validate_min_fcp_paths_count db fcp_devices min_fcp_paths_count
    fcp_template_id
  -- DML: table template_fcp_mapping
  let mapTbl ← (match fcp_devices with
   | none => Except.ok db.template_fcp_mapping
   | some devs =>
     -- only unused FCP devices (or devices allocated from another template)
     -- may be deleted from the template
     if editDelConflictSet db fcp_template_id devs ≠ [] then
       throw (.conflict 24)
     else
       Except.ok (editMapResult db fcp_template_id devs))
  -- DML: table template
  let tmplTbl :=
    if name ≠ none ∨ description ≠ none ∨ host_default ≠ none ∨
        min_fcp_paths_count ≠ none then
      let cur := (db.template.find? (fun t => t.id = fcp_template_id)).getD
        (TemplateRec.mk fcp_template_id "" "" false (-1))
      -- `update_basic_info_of_fcp_template` clears every template's default
      -- flag first, but only when the passed host_default is the Python
      -- literal True (a user-supplied boolean, never the integer fallback
      -- read back from the template row)
      let cleared :=
        if host_default = some true then
          db.template.map (fun t => { t with is_default := false })
        else db.template
      cleared.map (fun t =>
        if t.id = fcp_template_id then
          { t with
            name := name.getD cur.name,
            description := description.getD cur.description,
            is_default := host_default.getD cur.is_default,
            min_fcp_paths_count := min_fcp_paths_count.getD
              cur.min_fcp_paths_count }
        else t)
    else db.template
  -- DML: table template_sp_mapping (`bulk_set_sp_default_by_fcp_template`)
  let spTbl :=
    match default_sp_list with
    | none => db.template_sp_mapping
    | some sps =>
      let afterDel := db.template_sp_mapping.filter (fun s =>
        ¬ (s.tmpl_id = fcp_template_id ∨ sps.contains s.sp_name))
      afterDel ++ sps.map (fun sp => TemplateSpRec.mk sp fcp_template_id)
  Except.ok { db with
    template_fcp_mapping := mapTbl,
    template := tmplTbl,
    template_sp_mapping := spTbl }

/-- Insert into a list sorted by `le`. -/
def insertSorted (le : α → α → Bool) (x : α) : List α → List α
  | [] => [x]
  | y :: ys => if le x y then x :: y :: ys else y :: insertSorted le x ys

/-- Insertion sort by a boolean comparison; models the `ORDER BY` clauses and
Python `sorted`. -/
def sortWith (le : α → α → Bool) : List α → List α
  | [] => []
  | x :: xs => insertSorted le x (sortWith le xs)

/-- Python `max(lst)`; the default is only reached on the empty list (where
Python would raise `ValueError`). -/
def pyMax [LinearOrder α] (d : α) (l : List α) : α := l.foldl max (l.headD d)

/-- Python `min(lst)`; the default is only reached on the empty list. -/
def pyMin [LinearOrder α] (d : α) (l : List α) : α := l.foldl min (l.headD d)

/-- One allocated device as returned by both selection strategies
(the per-device dict with fcp_id/wwpn_npiv/wwpn_phy/path/pchid keys). -/
structure FcpSel where
  fcp_id : String
  wwpn_npiv : String
  wwpn_phy : String
  path : Nat
  pchid : String
deriving DecidableEq

/-- `template_fcp_mapping INNER JOIN fcp ON tf.fcp_id=fcp.fcp_id WHERE
tf.tmpl_id=?`: the join rows of one template (the `fcp` primary key makes the
per-mapping-row match unique). -/
def tmplRows (db : DB) (tid : String) : List (TemplateFcpRec × FcpRec) :=
  (db.template_fcp_mapping.filter (fun m => m.tmpl_id = tid)).filterMap
    (fun m =>
      (db.fcp.find? (fun f => f.fcp_id = m.fcp_id)).map (fun f => (m, f)))

/-- The availability condition checked in SQL by the selection queries:
`connections=0 AND reserved=0 AND state='free' AND wwpn_npiv IS NOT '' AND
wwpn_phy IS NOT ''`. -/
def freeCondFull (f : FcpRec) : Bool :=
  f.connections == 0 && f.reserved == 0 && f.state == "free" &&
    f.wwpn_npiv != "" && f.wwpn_phy != ""

/-- The weaker availability test used by the per-index candidate loops of
`get_fcp_devices_with_same_index`:
`connections == reserved == 0 and state == 'free'` (no WWPN test). -/
def freeLoose (f : FcpRec) : Bool :=
  f.connections == 0 && f.reserved == 0 && f.state == "free"

/-- Python `str.upper()` (character-wise upper-casing; written on the
character list so that it evaluates by kernel reduction). -/
def pyUpper (s : String) : String := String.mk (s.data.map Char.toUpper)

/-- Lexicographic strict order on character lists by code point. -/
def ltCharList : List Char → List Char → Bool
  | [], [] => false
  | [], _ :: _ => true
  | _ :: _, [] => false
  | a :: as, b :: bs =>
    if a.toNat < b.toNat then true
    else if b.toNat < a.toNat then false
    else ltCharList as bs

/-- String strict order by code point (Python string comparison and the
SQLite text ordering, on case-normalized data). -/
def strLt (a b : String) : Bool := ltCharList a.data b.data

/-- String non-strict order by code point. -/
def strLe (a b : String) : Bool := !(strLt b a)

/-- Three-way string comparison. -/
def cmpStr (a b : String) : Ordering :=
  if strLt a b then .lt else if strLt b a then .gt else .eq

/-- Three-way natural-number comparison. -/
def cmpNat (a b : Nat) : Ordering :=
  if a < b then .lt else if b < a then .gt else .eq

/-- One entry of the capacity snapshot `pchid_info`. -/
structure Cap where
  allocated : Int
  max : Int

/-- Free capacity of one physical channel group:
`pchid_info[pchid]['max'] - pchid_info[pchid]['allocated']`. -/
def freeCount (pi : String → Cap) (p : String) : Int :=
  (pi p).max - (pi p).allocated

/-- Per-group weights of one combination: for each distinct PCHID used, the
group's free capacity divided by the number of times the combination uses the
group. -/
def pchidWeights (pi : String → Cap) (pchids : List String) :
    List (String × ℚ) :=
  pchids.dedup.map (fun p =>
    (p, Rat.divInt (freeCount pi p) (pchids.count p : Int)))

/-- The weight of a combination: the minimum of its per-group weights. -/
def combWeightQ (pi : String → Cap) (pchids : List String) : ℚ :=
  pyMin 0 ((pchidWeights pi pchids).map (fun pw => pw.2))

/-- The groups of one combination whose weight is below 1, with their free
capacity (the entries recorded into `pchids_without_enough_free_cap`). -/
def badOf (pi : String → Cap) (pchids : List String) : List (String × Int) :=
  (pchidWeights pi pchids).filterMap (fun pw =>
    if pw.2 < 1 then some (pw.1, freeCount pi pw.1) else none)

/-- Dict insertion with overwrite, for `pchids_without_enough_free_cap`. -/
def upsertBad (acc : List (String × Int)) (kv : String × Int) :
    List (String × Int) :=
  if acc.any (fun e => e.1 = kv.1) then
    acc.map (fun e => if e.1 = kv.1 then kv else e)
  else acc ++ [kv]

/-- Accumulate the under-capacity groups over a list of combinations
(`_calculate_weight` filling `pchids_without_enough_free_cap`). -/
def accBad (pi : String → Cap) (combsPchids : List (List String))
    (init : List (String × Int)) : List (String × Int) :=
  combsPchids.foldl (fun acc c => (badOf pi c).foldl upsertBad acc) init

/-- Join-row comparison for `ORDER BY tf.path, tf.fcp_id`
(`get_fcp_devices_with_same_index`). -/
def lePathFcpId (a b : TemplateFcpRec × FcpRec) : Bool :=
  a.1.path < b.1.path ||
    (a.1.path == b.1.path && strLe a.1.fcp_id b.1.fcp_id)

/-- The joined device rows of the template ordered by `(tf.path, tf.fcp_id)`. -/
def fcpsSorted (db : DB) (tid : String) : List (TemplateFcpRec × FcpRec) :=
  sortWith lePathFcpId (tmplRows db tid)

/-- `SELECT COUNT(path) FROM template_fcp_mapping WHERE tmpl_id=? GROUP BY
path ORDER BY path`: per-path mapping-row counts in ascending path order. -/
def countPerPath (db : DB) (tid : String) : List Nat :=
  let maps := db.template_fcp_mapping.filter (fun m => m.tmpl_id = tid)
  let paths := sortWith (fun a b : Nat => a ≤ b) ((maps.map
    (fun m => m.path)).dedup)
  paths.map (fun p => (maps.filter (fun m => m.path = p)).length)

/-- Per-path counts of fully-available devices (the availability condition
with the WWPN tests), in ascending path order, paths with no such device
omitted — the GROUP BY of the second query of
`get_fcp_devices_with_same_index`. -/
def freeCountPerPath (db : DB) (tid : String) : List Nat :=
  let rows := (tmplRows db tid).filter (fun r => freeCondFull r.2)
  let paths := sortWith (fun a b : Nat => a ≤ b) ((rows.map
    (fun r => r.1.path)).dedup)
  paths.map (fun p => (rows.filter (fun r => r.1.path = p)).length)

/-- The tuple `(fcp_no, wwpn_npiv, wwpn_phy, path, pchid)` built from one join
row by `get_fcp_devices_with_same_index`. -/
def mkASel (r : TemplateFcpRec × FcpRec) : FcpSel :=
  { fcp_id := r.2.fcp_id, wwpn_npiv := r.2.wwpn_npiv,
    wwpn_phy := r.2.wwpn_phy, path := r.1.path, pchid := r.2.pchid }

/-- First candidate loop of `get_fcp_devices_with_same_index`: for every index
`i` below the smallest per-path count, keep index `i` when the device at
position `i` of the ordered join rows (a first-path device) passes the loose
availability test.  `fcps[i]` cannot be out of range when the mapping and fcp
tables are consistent; an out-of-range index is skipped here (Python would
raise `IndexError`). -/
def samePairBase (fcps : List (TemplateFcpRec × FcpRec)) (minCount : Nat) :
    List (Nat × FcpSel) :=
  (List.range minCount).filterMap (fun i =>
    match fcps.get? i with
    | some r => if freeLoose r.2 then some (i, mkASel r) else none
    | none => none)

/-- Second candidate loop of `get_fcp_devices_with_same_index` for one index:
walking the pairs `(count_per_path[i], count_per_path[i+1])`, accumulate the
device at offset `s + count_per_path[i] + idx` of the ordered rows when
`idx < count_per_path[i+1]` and the device passes the loose availability
test; any failure disqualifies the index (`pop` and `break`). -/
def samePairRest (fcps : List (TemplateFcpRec × FcpRec))
    (pairs : List (Nat × Nat)) (s idx : Nat) : Option (List FcpSel) :=
  match pairs with
  | [] => some []
  | (c, cNext) :: rest =>
    let s2 := s + c
    match fcps.get? (s2 + idx) with
    | none => none
    | some r =>
      if idx < cNext ∧ freeLoose r.2 then
        (samePairRest fcps rest s2 idx).map (fun l => mkASel r :: l)
      else none

/-- The same-index combinations (`fcp_combinations` of
`get_fcp_devices_with_same_index` before capacity filtering), keyed order
ascending in the index. -/
def samePairCombos (db : DB) (tid : String) : List (List FcpSel) :=
  let fcps := fcpsSorted db tid
  let counts := countPerPath db tid
  (samePairBase fcps (pyMin 0 counts)).filterMap (fun ib =>
    (samePairRest fcps (counts.dropLast.zip counts.tail) 0 ib.1).map
      (fun rest => ib.2 :: rest))

/-- Lexicographic comparison of the selection tuples, for Python
`sorted(fcp_combinations)`. -/
def cmpFcpSel (a b : FcpSel) : Ordering :=
  (cmpStr a.fcp_id b.fcp_id).then ((cmpStr a.wwpn_npiv b.wwpn_npiv).then
    ((cmpStr a.wwpn_phy b.wwpn_phy).then ((cmpNat a.path b.path).then
      (cmpStr a.pchid b.pchid))))

/-- Lexicographic comparison of lists. -/
def cmpList (cmp : α → α → Ordering) : List α → List α → Ordering
  | [], [] => .eq
  | [], _ :: _ => .lt
  | _ :: _, [] => .gt
  | a :: as, b :: bs => (cmp a b).then (cmpList cmp as bs)

/-- `a <= b` for combinations under the Python list ordering. -/
def leCombs (a b : List FcpSel) : Bool := cmpList cmpFcpSel a b ≠ .gt

/-- Sort the under-capacity dict items by key
(`sorted(pchids_without_enough_free_cap.items())`). -/
def sortBadPairs (l : List (String × Int)) : List (String × Int) :=
  sortWith (fun a b => strLe a.1 b.1) l

/-- Free-capacity listing inside the capacity diagnostics. -/
def reprBadPairs (l : List (String × Int)) : String :=
  String.intercalate ", " (l.map (fun e => e.1 ++ " free " ++ toString e.2))

/-- Diagnostic of `get_fcp_devices_with_same_index` when the template has no
devices at all. -/
def reasonA1 (tid : String) : String :=
  "No FCP device exists in FCP multipath template (id=" ++ tid ++
  "). To use this template, you must add more free FCP devices by editing " ++
  "the template. For load balance across multiple PCHIDs, suggest adding " ++
  "the same amount of FCP devices per PCHID."

/-- Diagnostic of `get_fcp_devices_with_same_index` when some path has no
fully-available device. -/
def reasonA2 (tid : String) (lacking : Nat) : String :=
  "As the option get_fcp_pair_with_same_index is enabled on this host, " ++
  "when you choose an FCP multipath template of this host for attaching " ++
  "volume or booting from volume, all the paths of the template must have " ++
  "free FCP devices. However, " ++ toString lacking ++
  " path(s) of template (id=" ++ tid ++ ") does not have free FCP devices. " ++
  "To use this template, you must add more free FCP devices by editing " ++
  "the template to meet the requirement."

/-- Diagnostic of `get_fcp_devices_with_same_index` when no index survives the
same-index pairing. -/
def reasonA3 (tid : String) : String :=
  "No FCP device combination of FCP multipath template (id=" ++ tid ++
  ") matches the same index policy. To use this template, you must add " ++
  "more free FCP devices by editing the template to meet the above " ++
  "requirement."

/-- Capacity-shortage diagnostic (used by both strategies). -/
def reasonCapacity (pairs : List (String × Int)) (tid : String) : String :=
  "Not enough free capacity of the following PCHIDs left. " ++
  "Their free capacity is " ++ reprBadPairs pairs ++
  ". To use this FCP multipath template (id=" ++ tid ++
  "), you must either increase free capacity of above PCHIDs or add more " ++
  "free FCP devices whose PCHIDs have enough free capacity by editing " ++
  "the template."

/-- `FCPDbOperator.get_fcp_devices_with_same_index` (Strategy A).  The final
`random.choice(sorted(fcp_combinations))` is modelled by the index parameter
`choiceIdx`. -/
def get_fcp_devices_with_same_index (db : DB) (tid : String)
    (pi : String → Cap) (choiceIdx : Nat) : List FcpSel × String :=
  let counts := countPerPath db tid
  if counts = [] then ([], reasonA1 tid)
  else
    let freeCounts := freeCountPerPath db tid
    if freeCounts.length < counts.length then
      ([], reasonA2 tid (counts.length - freeCounts.length))
    else
      let combos := samePairCombos db tid
      if combos = [] then ([], reasonA3 tid)
      else
        let bad := accBad pi (combos.map (fun c =>
          c.map (fun e => pyUpper e.pchid))) []
        let survivors := combos.filter (fun c =>
          !decide (combWeightQ pi (c.map (fun e => pyUpper e.pchid)) < 1))
        if survivors = [] then ([], reasonCapacity (sortBadPairs bad) tid)
        else
          let sortedCombos := sortWith leCombs survivors
          let chosen := sortedCombos.getD (choiceIdx % sortedCombos.length) []
          (chosen.map (fun e =>
            { e with fcp_id := pyUpper e.fcp_id, pchid := pyUpper e.pchid }),
           "")

/-- `FCPDbOperator.get_free_pchids_by_fcp_template`: for each path holding at
least one fully-available device, the distinct upper-cased PCHIDs of those
devices; paths ascending, PCHIDs ascending (the `ORDER BY path, pchid` with
the NOCASE collation is modelled on the upper-cased values). -/
def get_free_pchids_by_fcp_template (db : DB) (tid : String) :
    List (Nat × List String) :=
  let rows := (tmplRows db tid).filter (fun r => freeCondFull r.2)
  let pairs := (rows.map (fun r => (r.1.path, pyUpper r.2.pchid))).dedup
  let paths := sortWith (fun a b : Nat => a ≤ b) ((pairs.map
    (fun pr => pr.1)).dedup)
  paths.map (fun p =>
    (p, sortWith strLe
      ((pairs.filter (fun pr => pr.1 = p)).map (fun pr => pr.2))))

/-- `itertools.product` over a list of lists (first factor slowest). -/
def pyProduct : List (List α) → List (List α)
  | [] => [[]]
  | xs :: rest => xs.flatMap (fun x => (pyProduct rest).map (fun t => x :: t))

/-- All PCHID-per-path combinations tried at path count `k`
(`pchids_per_path_combinations` of `get_fcp_devices`): for every `k`-subset of
the free paths, the Cartesian product of one PCHID per chosen path. -/
def combosAt (freePP : List (Nat × List String)) (k : Nat) :
    List (List (Nat × String)) :=
  (List.sublistsLen k freePP).flatMap (fun subset =>
    (pyProduct (subset.map (fun pr => pr.2))).map (fun pchs =>
      (subset.map (fun pr => pr.1)).zip pchs))

/-- The combinations at path count `k` paired with their weight, after
`_remove_invalid_weight` (combinations of weight below 1 removed). -/
def survivorsAtK (pi : String → Cap) (freePP : List (Nat × List String))
    (k : Nat) : List (List (Nat × String) × ℚ) :=
  ((combosAt freePP k).map (fun c =>
    (c, combWeightQ pi (c.map (fun pp => pp.2))))).filter (fun cw =>
      !decide (cw.2 < 1))

/-- `pchids_without_enough_free_cap` as filled by `_calculate_weight` during
the iteration for path count `k`. -/
def badAtK (pi : String → Cap) (freePP : List (Nat × List String)) (k : Nat) :
    List (String × Int) :=
  accBad pi ((combosAt freePP k).map (fun c => c.map (fun pp => pp.2))) []

/-- Number of distinct PCHIDs of a combination. -/
def distinctPchids (c : List (Nat × String)) : Nat :=
  ((c.map (fun pp => pp.2)).dedup).length

/-- The final PCHID-per-path combination selected at path count `k`: among the
weight-filtered survivors keep only those of maximum weight
(`_select_max_weight`), then only those with the most distinct PCHIDs
(`_select_most_distributed_pchids`), then pick one (`random.choice` modelled
by the `chooseComb` index). -/
def finalCombAtK (pi : String → Cap) (freePP : List (Nat × List String))
    (k : Nat) (chooseComb : Nat) : List (Nat × String) :=
  let survivors := survivorsAtK pi freePP k
  let maxW := pyMax 0 (survivors.map (fun cw => cw.2))
  let s2 := survivors.filter (fun cw => cw.2 == maxW)
  let s3 := s2.map (fun cw => cw.1)
  let maxD := pyMax 0 (s3.map distinctPchids)
  let s4 := s3.filter (fun c => distinctPchids c == maxD)
  s4.getD (chooseComb % s4.length) []

/-- Join-row comparison for `ORDER BY tf.path, fcp.pchid, fcp.fcp_id`
(`_get_one_random_fcp_combinations`). -/
def lePathPchidFcpId (a b : TemplateFcpRec × FcpRec) : Bool :=
  a.1.path < b.1.path ||
    (a.1.path == b.1.path &&
      (strLt a.2.pchid b.2.pchid ||
        (a.2.pchid == b.2.pchid && strLe a.2.fcp_id b.2.fcp_id)))

/-- `_get_one_random_fcp_combinations`: query the fully-available devices of
the template restricted to the chosen `(path, PCHID)` pairs, group them by
path, and pick one device per path (each `random.choice` modelled by the
`devChoice` index for that path).  Each per-path bucket is non-empty whenever
the chosen combination came from the free-PCHID listing of the same database
state, so the fallback element is never selected there. -/
def get_one_random_fcp_combinations (db : DB) (tid : String)
    (comb : List (Nat × String)) (devChoice : Nat → Nat) : List FcpSel :=
  let rows := (tmplRows db tid).filter (fun r =>
    freeCondFull r.2 && comb.any (fun pp =>
      r.1.path == pp.1 && pyUpper r.2.pchid == pp.2))
  let rows := sortWith lePathPchidFcpId rows
  comb.map (fun pp =>
    let bucket := (rows.filter (fun r => r.1.path == pp.1)).map (fun r =>
      FcpSel.mk (pyUpper r.2.fcp_id) r.2.wwpn_npiv r.2.wwpn_phy r.1.path
        (pyUpper r.2.pchid))
    bucket.getD (devChoice pp.1 % bucket.length) (FcpSel.mk "" "" "" 0 ""))

/-- `reversed(range(lo, hi + 1))`: the descending path-count choices. -/
def descRange (hi lo : Int) : List Int :=
  (List.range (hi - lo + 1).toNat).map (fun (i : Nat) => hi - (i : Int))

/-- The `for path_cnt in path_count_choices` loop of `get_fcp_devices`: at the
first path count whose weight-filtered combination list is non-empty, select
and return the devices and stop; otherwise continue, remembering the
under-capacity groups of the last iteration for the diagnostic. -/
def tryKs (db : DB) (tid : String) (pi : String → Cap)
    (freePP : List (Nat × List String)) (chooseComb : Nat)
    (devChoice : Nat → Nat) : List Int → List FcpSel × List (String × Int)
  | [] => ([], [])
  | k :: rest =>
    let bad := badAtK pi freePP k.toNat
    if survivorsAtK pi freePP k.toNat = [] then
      match rest with
      | [] => ([], bad)
      | _ :: _ => tryKs db tid pi freePP chooseComb devChoice rest
    else
      (get_one_random_fcp_combinations db tid
        (finalCombAtK pi freePP k.toNat chooseComb) devChoice, bad)

/-- Diagnostic of `get_fcp_devices` when no path has a free device. -/
def reasonB1 (tid : String) : String :=
  "No free FCP device left in FCP multipath template (id=" ++ tid ++
  "). To use this template, you must add more free FCP devices by editing " ++
  "the template. For load balance across multiple PCHIDs, suggest adding " ++
  "the same amount of FCP devices per PCHID."

/-- Diagnostic of `get_fcp_devices` when fewer paths have free devices than
the minimum path count requires. -/
def reasonB2 (tid : String) (freeC minC : Int) : String :=
  "When you choose an FCP multipath template for attaching volume or " ++
  "booting from volume, the count of paths with free FCP devices must not " ++
  "be less than the minimum path count. However, free path count of " ++
  "template (id=" ++ tid ++ ") is " ++ toString freeC ++
  ", which is less than its minimum path count " ++ toString minC ++
  ". To use this template, you must either modify the minimum path count " ++
  "or add more free FCP devices by editing the template to meet the " ++
  "requirement."

/-- `FCPDbOperator.get_fcp_devices` (Strategy B).  The two `random.choice`
sites are modelled by the `chooseComb` and `devChoice` index parameters. -/
def get_fcp_devices (db : DB) (tid : String) (pi : String → Cap)
    (chooseComb : Nat) (devChoice : Nat → Nat) :
    Except SDKErr (List FcpSel × String) :=
  let freePP := get_free_pchids_by_fcp_template db tid
  if freePP = [] then .ok ([], reasonB1 tid)
  else
    match get_min_fcp_paths_count db tid with
    | .error e => .error e
    | .ok minC =>
      let freeC : Int := (freePP.length : Int)
      if freeC < minC then .ok ([], reasonB2 tid freeC minC)
      else
        let res := tryKs db tid pi freePP chooseComb devChoice
          (descRange freeC minC)
        if res.1 = [] then
          .ok ([], reasonCapacity (sortBadPairs res.2) tid)
        else .ok (res.1, "")

/-- Decidable equality of operation results, for concrete evaluation. -/
instance instDecEqExcept {ε α : Type} [DecidableEq ε] [DecidableEq α] :
    DecidableEq (Except ε α) := fun a b =>
  match a, b with
  | .ok x, .ok y =>
    if h : x = y then isTrue (by rw [h])
    else isFalse (fun hc => by cases hc; exact h rfl)
  | .error x, .error y =>
    if h : x = y then isTrue (by rw [h])
    else isFalse (fun hc => by cases hc; exact h rfl)
  | .ok _, .error _ => isFalse (fun hc => by cases hc)
  | .error _, .ok _ => isFalse (fun hc => by cases hc)

/-! ### Concrete database fixtures used by witnesses and counterexamples -/

/-- A device with no connections (for the decrement-at-zero behavior). -/
def r1d00 : FcpRec :=
  { fcp_id := "1d00", assigner_id := "u1", connections := 0, reserved := 0,
    state := "active" }

/-- A device with three connections. -/
def r1d01 : FcpRec :=
  { fcp_id := "1d01", assigner_id := "u1", connections := 3, reserved := 0,
    state := "active" }

/-- Fixture for the connection-counter operations. -/
def dbC1 : DB := { fcp := [r1d00, r1d01] }

/-- A reserved, connected, assigned device. -/
def r1e00 : FcpRec :=
  { fcp_id := "1e00", assigner_id := "u1", connections := 2, reserved := 1,
    state := "active", tmpl_id := "t9" }

/-- Fixture for reserve/unreserve. -/
def dbC9 : DB := { fcp := [r1e00] }

/-- Fixture for `increase_connections_by_assigner`: `1f00` belongs to `u2`. -/
def r1f00 : FcpRec :=
  { fcp_id := "1f00", assigner_id := "u2", connections := 1, reserved := 0,
    state := "active" }

/-- Fixture database for `increase_connections_by_assigner`. -/
def dbC10 : DB := { fcp := [r1f00] }

/-- Fixture for template deletion: template `t6` has a storage-provider
default mapping and one device mapping; no device carries `t6` as
provenance, while device `1g01` is allocated from template `t7`. -/
def dbC6 : DB :=
  { fcp := [
      { fcp_id := "1g00", state := "free", wwpn_npiv := "n1",
        wwpn_phy := "p1", pchid := "aaaa" },
      { fcp_id := "1g01", assigner_id := "u1", connections := 1,
        state := "active", tmpl_id := "t7", pchid := "aaaa" } ],
    template := [ { id := "t6", name := "six" }, { id := "t7", name := "seven" } ],
    template_sp_mapping := [ { sp_name := "sp1", tmpl_id := "t6" } ],
    template_fcp_mapping := [
      { fcp_id := "1g00", tmpl_id := "t6", path := 0 },
      { fcp_id := "1g01", tmpl_id := "t7", path := 0 } ] }

/-- Fixture for template creation: an existing non-default template. -/
def dbC7 : DB := { template := [ { id := "t0", name := "zero" } ] }

/-- `dbC7` after creating template `tA` as host default. -/
def dbC7a : DB :=
  { template := [ { id := "t0", name := "zero" },
                  { id := "tA", name := "A", is_default := true } ] }

/-- `dbC7a` after creating template `tB` as host default. -/
def dbC7b : DB :=
  { template := [ { id := "t0", name := "zero" },
                  { id := "tA", name := "A" },
                  { id := "tB", name := "B", is_default := true } ] }

/-- Fixture for template editing: template `t8` has devices `1h00` (free) and
`1h01` (in use, but allocated from template `t9`) on path 0; removing `1h01`
from `t8` must succeed. -/
def dbC8 : DB :=
  { fcp := [
      { fcp_id := "1h00", state := "free", wwpn_npiv := "n1",
        wwpn_phy := "p1", pchid := "aaaa" },
      { fcp_id := "1h01", assigner_id := "u1", connections := 2, reserved := 1,
        state := "active", tmpl_id := "t9", pchid := "aaaa" } ],
    template := [ { id := "t8", name := "eight" }, { id := "t9", name := "nine" } ],
    template_fcp_mapping := [
      { fcp_id := "1h00", tmpl_id := "t8", path := 0 },
      { fcp_id := "1h01", tmpl_id := "t8", path := 0 },
      { fcp_id := "1h01", tmpl_id := "t9", path := 0 } ] }

/-- Strategy A fixture: in template `t1`, path 0 holds `1a00` (free but with
an empty NPIV WWPN) and `1a01` (fully available); path 1 holds `1b00` (fully
available) and `1b01` (active).  The only same-index candidate combination is
index 0: `(1a00, 1b00)`. -/
def dbA : DB :=
  { fcp := [
      { fcp_id := "1a00", pchid := "aaaa", state := "free",
        wwpn_npiv := "", wwpn_phy := "p1" },
      { fcp_id := "1a01", pchid := "aaaa", state := "free",
        wwpn_npiv := "n2", wwpn_phy := "p2" },
      { fcp_id := "1b00", pchid := "bbbb", state := "free",
        wwpn_npiv := "n3", wwpn_phy := "p3" },
      { fcp_id := "1b01", pchid := "bbbb", state := "active",
        wwpn_npiv := "n4", wwpn_phy := "p4", connections := 1 } ],
    template := [ { id := "t1", name := "tmplA" } ],
    template_fcp_mapping := [
      { fcp_id := "1a00", tmpl_id := "t1", path := 0 },
      { fcp_id := "1a01", tmpl_id := "t1", path := 0 },
      { fcp_id := "1b00", tmpl_id := "t1", path := 1 },
      { fcp_id := "1b01", tmpl_id := "t1", path := 1 } ] }

/-- A generous capacity snapshot: every group has 100 free slots. -/
def piBig : String → Cap := fun _ => { allocated := 0, max := 100 }

/-- Strategy B fixture: template `t2` with fully-available devices on three
paths; paths 0 and 2 share the physical channel group `CCCC`. -/
def dbB : DB :=
  { fcp := [
      { fcp_id := "2a00", pchid := "aaaa", state := "free",
        wwpn_npiv := "n1", wwpn_phy := "p1" },
      { fcp_id := "2a01", pchid := "cccc", state := "free",
        wwpn_npiv := "n2", wwpn_phy := "p2" },
      { fcp_id := "2b00", pchid := "bbbb", state := "free",
        wwpn_npiv := "n3", wwpn_phy := "p3" },
      { fcp_id := "2c00", pchid := "cccc", state := "free",
        wwpn_npiv := "n4", wwpn_phy := "p4" } ],
    template := [ { id := "t2", name := "tmplB", min_fcp_paths_count := 2 } ],
    template_fcp_mapping := [
      { fcp_id := "2a00", tmpl_id := "t2", path := 0 },
      { fcp_id := "2a01", tmpl_id := "t2", path := 0 },
      { fcp_id := "2b00", tmpl_id := "t2", path := 1 },
      { fcp_id := "2c00", tmpl_id := "t2", path := 2 } ] }

/-- A snapshot with every group full: zero free capacity everywhere. -/
def piFull : String → Cap := fun _ => { allocated := 5, max := 5 }

/-- Strategy B shortfall fixture: template `t5` is configured with three
paths but only path 0 holds a fully-available device, and the stored
`min_fcp_paths_count` is the -1 sentinel (effective minimum 3). -/
def dbC5 : DB :=
  { fcp := [
      { fcp_id := "3a00", pchid := "aaaa", state := "free",
        wwpn_npiv := "n1", wwpn_phy := "p1" },
      { fcp_id := "3b00", pchid := "bbbb", state := "active",
        wwpn_npiv := "n2", wwpn_phy := "p2", connections := 1 },
      { fcp_id := "3c00", pchid := "cccc", state := "offline",
        wwpn_npiv := "n3", wwpn_phy := "p3" } ],
    template := [ { id := "t5", name := "tmplC5" } ],
    template_fcp_mapping := [
      { fcp_id := "3a00", tmpl_id := "t5", path := 0 },
      { fcp_id := "3b00", tmpl_id := "t5", path := 1 },
      { fcp_id := "3c00", tmpl_id := "t5", path := 2 } ] }

/-! ### General lemmas about the embedding -/

theorem find?_map_upd (l : List FcpRec) (f : String) (g : FcpRec → FcpRec)
    (hg : ∀ r, (g r).fcp_id = r.fcp_id) :
    (l.map (fun r => if r.fcp_id = f then g r else r)).find?
        (fun r => r.fcp_id = f)
      = (l.find? (fun r => r.fcp_id = f)).map g := by
  induction l with
  | nil => rfl
  | cons a t ih =>
    by_cases h : a.fcp_id = f
    · simp [List.find?_cons, h, hg]
    · simp [List.find?_cons, h, ih]

theorem foldl_update (set : FcpRec → FcpRec)
    (hid : ∀ r, (set r).fcp_id = r.fcp_id)
    (hidem : ∀ r, set (set r) = set r)
    (ids : List String) (tbl : List FcpRec) :
    ids.foldl (fun t i => t.map (fun r => if r.fcp_id = i then set r else r))
        tbl
      = tbl.map (fun r => if ids.contains r.fcp_id then set r else r) := by
  induction ids generalizing tbl with
  | nil =>
    simp
  | cons a ids ih =>
    rw [List.foldl_cons, ih, List.map_map]
    refine (List.map_congr_left (fun r _ => ?_)).symm
    show (if (a :: ids).contains r.fcp_id then set r else r)
      = (fun r' => if ids.contains r'.fcp_id then set r' else r')
          (if r.fcp_id = a then set r else r)
    by_cases h : r.fcp_id = a
    · by_cases h2 : ids.contains r.fcp_id
      · simp [List.contains_cons, h, h2, hid, hidem]
      · simp [List.contains_cons, h, h2, hid]
        subst h
        simp at h2
        simp [h2]
    · by_cases h2 : ids.contains r.fcp_id
      · simp [List.contains_cons, h, h2]
      · simp [List.contains_cons, h, h2]

theorem find?_fcpId_of_nodup (l : List FcpRec) (f : String) (row : FcpRec)
    (hnd : (l.map (fun r => r.fcp_id)).Nodup)
    (hmem : row ∈ l) (hid : row.fcp_id = f) :
    l.find? (fun r => r.fcp_id = f) = some row := by
  induction l with
  | nil => cases hmem
  | cons a t ih =>
    rw [List.map_cons, List.nodup_cons] at hnd
    rcases List.mem_cons.mp hmem with h | h
    · subst h
      simp [List.find?_cons, hid]
    · by_cases ha : a.fcp_id = f
      · exact absurd (List.mem_map.mpr ⟨row, h, (ha.trans hid.symm).symm⟩)
          hnd.1
      · rw [List.find?_cons_of_neg _ (by simp [ha])]
        exact ih hnd.2 h

theorem insertSorted_perm (le : α → α → Bool) (x : α) (l : List α) :
    List.Perm (insertSorted le x l) (x :: l) := by
  induction l with
  | nil => exact List.Perm.refl _
  | cons y ys ih =>
    by_cases h : le x y
    · simp [insertSorted, h]
    · simp only [insertSorted, h, if_neg, Bool.not_eq_true, if_false]
      exact ((ih.cons y).trans (List.Perm.swap x y ys))

theorem sortWith_perm (le : α → α → Bool) (l : List α) :
    List.Perm (sortWith le l) l := by
  induction l with
  | nil => exact List.Perm.refl _
  | cons x xs ih =>
    exact (insertSorted_perm le x (sortWith le xs)).trans (ih.cons x)

theorem mem_sortWith (le : α → α → Bool) (l : List α) (x : α) :
    x ∈ sortWith le l ↔ x ∈ l :=
  (sortWith_perm le l).mem_iff

theorem foldl_min_le_self [LinearOrder α] (l : List α) (a : α) :
    l.foldl min a ≤ a := by
  induction l generalizing a with
  | nil => exact le_refl a
  | cons x t ih => exact le_trans (ih (min a x)) (min_le_left a x)

theorem foldl_min_le_mem [LinearOrder α] (l : List α) (a x : α) (hx : x ∈ l) :
    l.foldl min a ≤ x := by
  induction l generalizing a with
  | nil => cases hx
  | cons y t ih =>
    rcases List.mem_cons.mp hx with h | h
    · subst h
      exact le_trans (foldl_min_le_self t (min a x)) (min_le_right a x)
    · exact ih (min a y) h

theorem pyMin_le [LinearOrder α] (d : α) (l : List α) (x : α) (hx : x ∈ l) :
    pyMin d l ≤ x :=
  foldl_min_le_mem l (l.headD d) x hx

theorem self_le_foldl_max [LinearOrder α] (l : List α) (a : α) :
    a ≤ l.foldl max a := by
  induction l generalizing a with
  | nil => exact le_refl a
  | cons x t ih => exact le_trans (le_max_left a x) (ih (max a x))

theorem mem_le_foldl_max [LinearOrder α] (l : List α) (a x : α) (hx : x ∈ l) :
    x ≤ l.foldl max a := by
  induction l generalizing a with
  | nil => cases hx
  | cons y t ih =>
    rcases List.mem_cons.mp hx with h | h
    · subst h
      exact le_trans (le_max_right a x) (self_le_foldl_max t (max a x))
    · exact ih (max a y) h

theorem le_pyMax [LinearOrder α] (d : α) (l : List α) (x : α) (hx : x ∈ l) :
    x ≤ pyMax d l :=
  mem_le_foldl_max l (l.headD d) x hx

theorem foldl_max_mem [LinearOrder α] (l : List α) (a : α) :
    l.foldl max a = a ∨ l.foldl max a ∈ l := by
  induction l generalizing a with
  | nil => exact Or.inl rfl
  | cons x t ih =>
    rcases ih (max a x) with h | h
    · rcases max_choice a x with hm | hm
      · exact Or.inl (by rw [List.foldl_cons, h, hm])
      · exact Or.inr (by rw [List.foldl_cons, h, hm]; exact List.mem_cons_self x t)
    · exact Or.inr (List.mem_cons_of_mem x h)

theorem pyMax_mem [LinearOrder α] (d : α) (l : List α) (hl : l ≠ []) :
    pyMax d l ∈ l := by
  rcases foldl_max_mem l (l.headD d) with h | h
  · rw [pyMax, h]
    cases l with
    | nil => exact absurd rfl hl
    | cons x t => exact List.mem_cons_self x t
  · exact h

/-! ### Claim theorems -/

/-- C1 (amended): `decrease_connections` never drives the `connections`
counter below zero, but a decrement of a device whose counter is already 0
raises `NotFound` (as does a missing device) instead of clamping and
returning normally; for a device with a non-zero counter it stores and
returns the decremented value, clamped to 0 from below. -/
theorem C1_decrease_connections (db : DB) (f : String) :
    (db.fcp.find? (fun r => r.fcp_id = f) = none →
      decrease_connections db f = .error .notFound) ∧
    (∀ row, db.fcp.find? (fun r => r.fcp_id = f) = some row →
      (row.connections = 0 →
        decrease_connections db f = .error .notFound) ∧
      (row.connections ≠ 0 →
        ∃ c : Int,
          decrease_connections db f =
            .ok ({ db with fcp := db.fcp.map (fun r =>
              if r.fcp_id = f then { r with connections := c } else r) }, c) ∧
          0 ≤ c ∧
          c = if row.connections - 1 < 0 then 0 else row.connections - 1)) := by
  constructor
  · intro hnone
    simp [decrease_connections, hnone]
  · intro row hrow
    constructor
    · intro h0
      simp [decrease_connections, hrow, h0]
    · intro hne
      refine ⟨if row.connections - 1 < 0 then 0 else row.connections - 1,
        ?_, ?_, rfl⟩
      · have hre := find?_map_upd db.fcp f
          (fun r => { r with connections :=
            if row.connections - 1 < 0 then 0 else row.connections - 1 })
          (fun r => rfl)
        simp only [decrease_connections, hrow, if_neg hne]
        rw [hre, hrow]
        rfl
      · by_cases h : row.connections - 1 < 0
        · simp [h]
        · simp [h]
          omega

/-- C1 counterexample: on a device whose `connections` counter is 0
(`r1d00` in `dbC1`), `decrease_connections` raises `NotFound` rather than
clamping to 0 and returning normally as the claim states. -/
theorem C1_counterexample :
    decrease_connections dbC1 "1d00" = .error .notFound := by
  rfl

/-- C1 witness: applying `C1_decrease_connections` to device `1d01` of
`dbC1`, whose counter is 3, yields the decremented counter 2. -/
theorem C1_witness :
    ∃ c : Int,
      decrease_connections dbC1 "1d01" =
        .ok ({ dbC1 with fcp := dbC1.fcp.map (fun r =>
          if r.fcp_id = "1d01" then { r with connections := c } else r) },
          c) ∧
      0 ≤ c ∧
      c = if r1d01.connections - 1 < 0 then 0 else r1d01.connections - 1 :=
  ((C1_decrease_connections dbC1 "1d01").2 r1d01 (by rfl)).2 (by decide)

/-- C9 (amended): for every batch of device ids, `unreserve_fcps` sets
`reserved` to 0 and clears `tmpl_id` on each listed device — leaving
`assigner_id` (contrary to the original claim) and `connections` unchanged —
and `reserve_fcps` sets `reserved` to 1 and assigns `assigner_id` and
`tmpl_id` on each listed device, leaving `connections` unchanged; devices not
listed and the other three tables are unchanged. -/
theorem C9_reserve_unreserve (db : DB) (ids : List String) (a t : String) :
    (unreserve_fcps db ids).fcp = db.fcp.map (fun r =>
        if ids.contains r.fcp_id then
          { r with reserved := 0, tmpl_id := "" }
        else r) ∧
    (unreserve_fcps db ids).template = db.template ∧
    (unreserve_fcps db ids).template_sp_mapping = db.template_sp_mapping ∧
    (unreserve_fcps db ids).template_fcp_mapping =
      db.template_fcp_mapping ∧
    (reserve_fcps db ids a t).fcp = db.fcp.map (fun r =>
        if ids.contains r.fcp_id then
          { r with reserved := 1, assigner_id := a, tmpl_id := t }
        else r) ∧
    (reserve_fcps db ids a t).template = db.template ∧
    (reserve_fcps db ids a t).template_sp_mapping =
      db.template_sp_mapping ∧
    (reserve_fcps db ids a t).template_fcp_mapping =
      db.template_fcp_mapping := by
  have hu : (unreserve_fcps db ids).fcp = db.fcp.map (fun r =>
      if ids.contains r.fcp_id then { r with reserved := 0, tmpl_id := "" }
      else r) := by
    by_cases hids : ids = []
    · subst hids
      simp [unreserve_fcps]
    · simp only [unreserve_fcps, if_neg hids]
      exact foldl_update (fun r => { r with reserved := 0, tmpl_id := "" })
        (fun r => rfl) (fun r => rfl) ids db.fcp
  have hr : (reserve_fcps db ids a t).fcp = db.fcp.map (fun r =>
      if ids.contains r.fcp_id then
        { r with reserved := 1, assigner_id := a, tmpl_id := t }
      else r) := by
    simp only [reserve_fcps]
    exact foldl_update
      (fun r => { r with reserved := 1, assigner_id := a, tmpl_id := t })
      (fun r => rfl) (fun r => rfl) ids db.fcp
  refine ⟨hu, ?_, ?_, ?_, hr, rfl, rfl, rfl⟩ <;>
    · by_cases hids : ids = [] <;> simp [unreserve_fcps, hids]

/-- C9 counterexample: unreserving device `1e00` of `dbC9` (assigned to
`u1`) does not clear `assigner_id`, contradicting the claim that
`unreserve_fcps` clears `reserved`, `assigner_id` and `tmpl_id`. -/
theorem C9_counterexample :
    ¬ (∀ r ∈ (unreserve_fcps dbC9 ["1e00"]).fcp,
        r.fcp_id = "1e00" →
          r.reserved = 0 ∧ r.assigner_id = "" ∧ r.tmpl_id = "") := by
  decide

/-- C9 witness: `C9_reserve_unreserve` applied to `dbC9` with the batch
consisting of device `1e00`. -/
theorem C9_witness :
    (unreserve_fcps dbC9 ["1e00"]).fcp = dbC9.fcp.map (fun r =>
        if List.contains ["1e00"] r.fcp_id then
          { r with reserved := 0, tmpl_id := "" }
        else r) ∧
    (reserve_fcps dbC9 ["1e00"] "u7" "t7").fcp = dbC9.fcp.map (fun r =>
        if List.contains ["1e00"] r.fcp_id then
          { r with reserved := 1, assigner_id := "u7", tmpl_id := "t7" }
        else r) :=
  ⟨(C9_reserve_unreserve dbC9 ["1e00"] "u7" "t7").1,
   (C9_reserve_unreserve dbC9 ["1e00"] "u7" "t7").2.2.2.2.1⟩

/-- C10: `increase_connections_by_assigner` raises `NotFound` when the device
row is absent and also when the row exists but its `assigner_id` differs from
the given assigner; when both match it increments `connections` by exactly 1,
returns the new value, and leaves every other field and row unchanged. -/
theorem C10_increase_connections_by_assigner (db : DB) (f a : String)
    (hnd : (db.fcp.map (fun r => r.fcp_id)).Nodup) :
    (∀ r ∈ db.fcp, r.fcp_id = f → r.assigner_id ≠ a →
      increase_connections_by_assigner db f a = .error .notFound) ∧
    (db.fcp.find? (fun r => r.fcp_id = f ∧ r.assigner_id = a) = none →
      increase_connections_by_assigner db f a = .error .notFound) ∧
    (∀ row, db.fcp.find? (fun r => r.fcp_id = f ∧ r.assigner_id = a)
        = some row →
      increase_connections_by_assigner db f a =
        .ok ({ db with fcp := db.fcp.map (fun r =>
          if r.fcp_id = f ∧ r.assigner_id = a then
            { r with connections := row.connections + 1 }
          else r) }, row.connections + 1)) := by
  have hnone : ∀ hn : db.fcp.find?
      (fun r => r.fcp_id = f ∧ r.assigner_id = a) = none,
      increase_connections_by_assigner db f a = .error .notFound := by
    intro hn
    unfold increase_connections_by_assigner
    rw [hn]
  refine ⟨?_, hnone, ?_⟩
  · intro r hr hid hass
    refine hnone (List.find?_eq_none.mpr ?_)
    intro x hx hpred
    rw [decide_eq_true_iff] at hpred
    have hxid : x.fcp_id = f := hpred.1
    have hxr : x = r :=
      List.inj_on_of_nodup_map hnd hx hr (by rw [hxid, hid])
    rw [hxr] at hpred
    exact hass hpred.2
  · intro row hrow
    have hmem : row ∈ db.fcp := List.mem_of_find?_eq_some hrow
    have hpred := List.find?_some hrow
    rw [decide_eq_true_iff] at hpred
    have hid : row.fcp_id = f := hpred.1
    -- the updated table keeps the fcp ids, so the re-read finds the
    -- updated unique row
    have hnd2 : ((db.fcp.map (fun r =>
        if r.fcp_id = f ∧ r.assigner_id = a then
          { r with connections := row.connections + 1 }
        else r)).map (fun r => r.fcp_id)).Nodup := by
      rw [List.map_map]
      have : ((fun r : FcpRec => r.fcp_id) ∘ (fun r =>
          if r.fcp_id = f ∧ r.assigner_id = a then
            { r with connections := row.connections + 1 }
          else r)) = fun r : FcpRec => r.fcp_id := by
        funext r
        by_cases h : r.fcp_id = f ∧ r.assigner_id = a <;>
          simp [Function.comp, h]
      rw [this]
      exact hnd
    have hmem2 : (if row.fcp_id = f ∧ row.assigner_id = a then
        { row with connections := row.connections + 1 } else row) ∈
        db.fcp.map (fun r =>
          if r.fcp_id = f ∧ r.assigner_id = a then
            { r with connections := row.connections + 1 }
          else r) := List.mem_map_of_mem _ hmem
    rw [if_pos hpred] at hmem2
    have hfind2 := find?_fcpId_of_nodup _ f _ hnd2 hmem2 hid
    simp only [increase_connections_by_assigner, hrow]
    rw [hfind2]

/-- C10 witness: `C10_increase_connections_by_assigner` applied to `dbC10`:
the row for `1f00` is owned by `u2`, so the wrong-assigner lookup fails with
`NotFound` while the matching lookup increments 1 to 2. -/
theorem C10_witness :
    increase_connections_by_assigner dbC10 "1f00" "u1" = .error .notFound ∧
    increase_connections_by_assigner dbC10 "1f00" "u2" =
      .ok ({ dbC10 with fcp := dbC10.fcp.map (fun r =>
        if r.fcp_id = "1f00" ∧ r.assigner_id = "u2" then
          { r with connections := r1f00.connections + 1 }
        else r) }, r1f00.connections + 1) :=
  ⟨(C10_increase_connections_by_assigner dbC10 "1f00" "u1"
      (by decide)).1 r1f00 (by decide) (by decide) (by decide),
   (C10_increase_connections_by_assigner dbC10 "1f00" "u2"
      (by decide)).2.2 r1f00 (by rfl)⟩

/-- C6: `delete_fcp_template` raises `NotFound` when the template id is
absent, raises `Conflict` when at least one device row carries this template
id as allocation provenance, and otherwise deletes the template row and all
of its rows in `template_sp_mapping` and `template_fcp_mapping` within one
transaction; a failure occurs before any deletion, so no table is modified
then. -/
theorem C6_delete_fcp_template (db : DB) (tid : String) :
    (fcp_template_exist_in_db db tid = false →
      delete_fcp_template db tid = .error .notFound) ∧
    (fcp_template_exist_in_db db tid = true →
      (∃ r ∈ db.fcp, r.tmpl_id = tid) →
      delete_fcp_template db tid = .error (.conflict 22)) ∧
    (fcp_template_exist_in_db db tid = true →
      (∀ r ∈ db.fcp, r.tmpl_id ≠ tid) →
      delete_fcp_template db tid = .ok { db with
        template := db.template.filter (fun t => t.id ≠ tid),
        template_sp_mapping :=
          db.template_sp_mapping.filter (fun s => s.tmpl_id ≠ tid),
        template_fcp_mapping :=
          db.template_fcp_mapping.filter (fun m => m.tmpl_id ≠ tid) }) := by
  refine ⟨?_, ?_, ?_⟩
  · intro hne
    simp [delete_fcp_template, hne]
  · intro hex hr
    have hinuse : get_inuse_fcp_device_by_fcp_template db tid ≠ [] := by
      obtain ⟨r, hrm, hrt⟩ := hr
      simp only [get_inuse_fcp_device_by_fcp_template, ne_eq,
        List.map_eq_nil_iff, List.filter_eq_nil_iff]
      intro hall
      exact (hall r hrm) (by simp [hrt])
    simp [delete_fcp_template, hex, hinuse]
  · intro hex hnone
    have hinuse : get_inuse_fcp_device_by_fcp_template db tid = [] := by
      simp only [get_inuse_fcp_device_by_fcp_template,
        List.map_eq_nil_iff, List.filter_eq_nil_iff]
      intro r hrm
      simp [hnone r hrm]
    simp [delete_fcp_template, hex, hinuse]

/-- C6 witness: `C6_delete_fcp_template` applied to `dbC6`: deleting `t7`
(whose device `1g01` is still allocated) fails with `Conflict`, while
deleting `t6` (no allocated device) removes its rows from all three template
tables. -/
theorem C6_witness :
    delete_fcp_template dbC6 "t7" = .error (.conflict 22) ∧
    delete_fcp_template dbC6 "t6" = .ok { dbC6 with
      template := dbC6.template.filter (fun t => t.id ≠ "t6"),
      template_sp_mapping :=
        dbC6.template_sp_mapping.filter (fun s => s.tmpl_id ≠ "t6"),
      template_fcp_mapping :=
        dbC6.template_fcp_mapping.filter (fun m => m.tmpl_id ≠ "t6") } :=
  ⟨(C6_delete_fcp_template dbC6 "t7").2.1 (by decide)
      ⟨{ fcp_id := "1g01", assigner_id := "u1", connections := 1,
         state := "active", tmpl_id := "t7", pchid := "aaaa" },
       by decide, by decide⟩,
   (C6_delete_fcp_template dbC6 "t6").2.2 (by decide) (by decide)⟩

/-- C7: `create_fcp_template` with `host_default = true` first clears
`is_default` on every existing template in the same transaction, so creating
template T with host default true and then template U with host default true
leaves U as the only template whose `is_default` flag is set. -/
theorem C7_host_default_unique (db db1 db2 : DB) (tId nT dT uId nU dU : String)
    (devT devU : List (Nat × List String)) (spT spU : List String)
    (mT mU : Option Int)
    (h1 : create_fcp_template db tId nT dT devT true spT mT = .ok db1)
    (h2 : create_fcp_template db1 uId nU dU devU true spU mU = .ok db2) :
    (db1.template.filter (fun t => t.is_default)).map (fun t => t.id)
        = [tId] ∧
    (db2.template.filter (fun t => t.is_default)).map (fun t => t.id)
        = [uId] := by
  have key : ∀ (d d' : DB) (i n de : String) (dev : List (Nat × List String))
      (sp : List String) (m : Option Int),
      create_fcp_template d i n de dev true sp m = .ok d' →
      (d'.template.filter (fun t => t.is_default)).map (fun t => t.id)
        = [i] := by
    intro d d' i n de dev sp m h
    by_cases hex : fcp_template_exist_in_db d i
    · simp [create_fcp_template, hex] at h
    · simp only [create_fcp_template, hex, Bool.false_eq_true, if_false,
        if_neg, Except.ok.injEq] at h
      subst h
      simp only [List.filter_append, List.map_append]
      have hclear : (d.template.map
          (fun t => { t with is_default := false })).filter
          (fun t => t.is_default) = [] := by
        simp [List.filter_eq_nil_iff]
      rw [if_pos trivial, hclear]
      simp
  exact ⟨key db db1 tId nT dT devT spT mT h1,
         key db1 db2 uId nU dU devU spU mU h2⟩

/-- C7 witness: `C7_host_default_unique` applied to `dbC7`: after creating
`tA` then `tB`, each with host default set, only the most recent creation
holds the flag. -/
theorem C7_witness :
    (dbC7a.template.filter (fun t => t.is_default)).map (fun t => t.id)
        = ["tA"] ∧
    (dbC7b.template.filter (fun t => t.is_default)).map (fun t => t.id)
        = ["tB"] :=
  C7_host_default_unique dbC7 dbC7a dbC7b "tA" "A" "" "tB" "B" "" [] [] [] []
    none none (by rfl) (by rfl)

/-- C2 (code-bug evidence): evaluated on `dbA` — where device `1a00` has
`connections = 0`, `reserved = 0`, `state = 'free'` but an empty
`wwpn_npiv` — Strategy A (`get_fcp_devices_with_same_index`) returns `1A00`
even though the claim (and the function's own docstring) promise
`wwpn_npiv != ''` for every returned device: its per-index candidate filter
only tests `connections == reserved == 0 and state == 'free'`. -/
theorem C2_same_index_returns_empty_wwpn :
    (get_fcp_devices_with_same_index dbA "t1" piBig 0).1 =
      [ { fcp_id := "1A00", wwpn_npiv := "", wwpn_phy := "p1",
          path := 0, pchid := "AAAA" },
        { fcp_id := "1B00", wwpn_npiv := "n3", wwpn_phy := "p3",
          path := 1, pchid := "BBBB" } ] ∧
    ∃ e ∈ (get_fcp_devices_with_same_index dbA "t1" piBig 0).1,
      e.wwpn_npiv = "" := by
  constructor
  · decide
  · refine ⟨FcpSel.mk "1A00" "" "p1" 0 "AAAA", ?_, rfl⟩
    decide

theorem append_ne_left (a b : String) (h : a ≠ "") : a ++ b ≠ "" := by
  intro hc
  have hd := congrArg String.data hc
  rw [String.data_append] at hd
  rcases List.append_eq_nil.mp hd with ⟨ha, _⟩
  exact h (by cases a; simp_all)

theorem reasonB1_ne_empty (tid : String) : reasonB1 tid ≠ "" := by
  unfold reasonB1
  repeat
    first
    | apply append_ne_left
    | decide

theorem reasonB2_ne_empty (tid : String) (f m : Int) :
    reasonB2 tid f m ≠ "" := by
  unfold reasonB2
  repeat
    first
    | apply append_ne_left
    | decide

theorem reasonCapacity_ne_empty (pairs : List (String × Int)) (tid : String) :
    reasonCapacity pairs tid ≠ "" := by
  unfold reasonCapacity
  repeat
    first
    | apply append_ne_left
    | decide

/-- C5: for every existing template whose count of paths with free devices is
strictly below its effective minimum path count (`get_min_fcp_paths_count`,
whose -1 sentinel stands for the template's total configured path count),
`get_fcp_devices` returns successfully with an empty device list and a
non-empty diagnostic, whichever of the two early-exit diagnostics applies. -/
theorem C5_free_paths_below_minimum (db : DB) (tid : String)
    (pi : String → Cap) (chooseComb : Nat) (devChoice : Nat → Nat)
    (minC : Int) (hmin : get_min_fcp_paths_count db tid = .ok minC)
    (hlt : ((get_free_pchids_by_fcp_template db tid).length : Int) < minC) :
    (get_min_fcp_paths_count_from_db db tid = some (-1) →
      minC = (get_path_count db tid : Int)) ∧
    (get_free_pchids_by_fcp_template db tid = [] →
      get_fcp_devices db tid pi chooseComb devChoice =
        .ok ([], reasonB1 tid) ∧ reasonB1 tid ≠ "") ∧
    (get_free_pchids_by_fcp_template db tid ≠ [] →
      get_fcp_devices db tid pi chooseComb devChoice =
        .ok ([], reasonB2 tid
          ((get_free_pchids_by_fcp_template db tid).length : Int) minC) ∧
      reasonB2 tid ((get_free_pchids_by_fcp_template db tid).length : Int)
        minC ≠ "") := by
  refine ⟨?_, ?_, ?_⟩
  · intro hstored
    unfold get_min_fcp_paths_count at hmin
    by_cases htid : tid = ""
    · simp [htid] at hmin
    · simp only [htid, if_neg, hstored] at hmin
      simp at hmin
      omega
  · intro hempty
    constructor
    · unfold get_fcp_devices
      simp [hempty]
    · exact reasonB1_ne_empty tid
  · intro hne
    constructor
    · unfold get_fcp_devices
      simp only [hne, if_neg, hmin]
      simp [hlt]
    · exact reasonB2_ne_empty tid _ minC

/-- C5 witness: `C5_free_paths_below_minimum` on `dbC5`: template `t5` has
three configured paths (sentinel minimum 3) but only one path with a free
device, so selection returns an empty list with the shortfall diagnostic. -/
theorem C5_witness :
    get_fcp_devices dbC5 "t5" piBig 0 (fun _ => 0) =
      .ok ([], reasonB2 "t5"
        ((get_free_pchids_by_fcp_template dbC5 "t5").length : Int) 3) ∧
    reasonB2 "t5" ((get_free_pchids_by_fcp_template dbC5 "t5").length : Int)
      3 ≠ "" :=
  (C5_free_paths_below_minimum dbC5 "t5" piBig 0 (fun _ => 0) 3
    (by rfl) (by decide)).2.2 (by decide)

/-- C8: in a template edit whose new device list keeps the path count
unchanged, an omitted device is rejected with `Conflict` exactly when it is
both in use (non-zero `connections` or `reserved`) and allocated from this
template (`fcp.tmpl_id` equal to this template id); when no omitted device
satisfies both, the edit succeeds and the omitted devices are removed from
this template's mappings — in particular a device in use under a different
template's provenance is removable from this template without error. -/
theorem C8_edit_same_template_check (db : DB) (tid : String)
    (devs : List (Nat × List String))
    (hnd : (db.fcp.map (fun r => r.fcp_id)).Nodup)
    (hex : fcp_template_exist_in_db db tid = true)
    (hpc : devs.length = get_path_count db tid)
    (hmin : validate_min_fcp_paths_count db (some devs) none tid = .ok ()) :
    (editDelConflictSet db tid devs ≠ [] ↔
      ∃ d ∈ editDelSet db tid devs, ∃ f ∈ db.fcp, f.fcp_id = d ∧
        (f.connections ≠ 0 ∨ f.reserved ≠ 0) ∧ f.tmpl_id = tid) ∧
    (editDelConflictSet db tid devs ≠ [] →
      edit_fcp_template db tid none none (some devs) none none none =
        .error (.conflict 24)) ∧
    (editDelConflictSet db tid devs = [] →
      ∃ db', edit_fcp_template db tid none none (some devs) none none none =
          .ok db' ∧
        ∀ d ∈ editDelSet db tid devs, ∀ m ∈ db'.template_fcp_mapping,
          ¬ (m.tmpl_id = tid ∧ m.fcp_id = d)) := by
  have hcontains : ∀ (l : List String) (x : String),
      l.contains x = true ↔ x ∈ l := by
    intro l x
    simp
  have hg1 : ∀ d, ((match db.fcp.find? (fun f => f.fcp_id = d) with
      | none => false
      | some f => decide (f.connections ≠ 0 ∨ f.reserved ≠ 0)) = true) ↔
      ∃ f ∈ db.fcp, f.fcp_id = d ∧ (f.connections ≠ 0 ∨ f.reserved ≠ 0) := by
    intro d
    constructor
    · intro h
      cases hf : db.fcp.find? (fun f => f.fcp_id = d) with
      | none => rw [hf] at h; cases h
      | some f =>
        rw [hf] at h
        refine ⟨f, List.mem_of_find?_eq_some hf, ?_, of_decide_eq_true h⟩
        have := List.find?_some hf
        exact of_decide_eq_true this
    · rintro ⟨f, hmem, hid, huse⟩
      rw [find?_fcpId_of_nodup db.fcp d f hnd hmem hid]
      exact decide_eq_true huse
  have hg2 : ∀ d,
      ((get_inuse_fcp_device_by_fcp_template db tid).contains d = true) ↔
      ∃ f ∈ db.fcp, f.fcp_id = d ∧ f.tmpl_id = tid := by
    intro d
    rw [hcontains]
    unfold get_inuse_fcp_device_by_fcp_template
    simp only [List.mem_map, List.mem_filter]
    constructor
    · rintro ⟨f, ⟨hmem, ht⟩, hid⟩
      exact ⟨f, hmem, hid, of_decide_eq_true ht⟩
    · rintro ⟨f, hmem, hid, ht⟩
      exact ⟨f, ⟨hmem, decide_eq_true ht⟩, hid⟩
  have hiff : editDelConflictSet db tid devs ≠ [] ↔
      ∃ d ∈ editDelSet db tid devs, ∃ f ∈ db.fcp, f.fcp_id = d ∧
        (f.connections ≠ 0 ∨ f.reserved ≠ 0) ∧ f.tmpl_id = tid := by
    unfold editDelConflictSet
    constructor
    · intro h
      obtain ⟨d, hd⟩ := List.exists_mem_of_ne_nil _ h
      rw [List.mem_filter] at hd
      obtain ⟨hd1, hd2⟩ := hd
      rw [List.mem_filter] at hd1
      obtain ⟨hdel, hd1⟩ := hd1
      obtain ⟨f0, hf0m, hf0id, hf0use⟩ := (hg1 d).mp hd1
      obtain ⟨f1, hf1m, hf1id, hf1t⟩ := (hg2 d).mp hd2
      have : f0 = f1 :=
        List.inj_on_of_nodup_map hnd hf0m hf1m (by rw [hf0id, hf1id])
      exact ⟨d, hdel, f0, hf0m, hf0id, hf0use, this ▸ hf1t⟩
    · rintro ⟨d, hdel, f, hmem, hid, huse, ht⟩
      apply List.ne_nil_of_mem (a := d)
      rw [List.mem_filter, List.mem_filter]
      exact ⟨⟨hdel, (hg1 d).mpr ⟨f, hmem, hid, huse⟩⟩,
        (hg2 d).mpr ⟨f, hmem, hid, ht⟩⟩
  refine ⟨hiff, ?_, ?_⟩
  · intro hcf
    unfold edit_fcp_template
    simp [hex, hpc, hmin, hcf, Bind.bind, Except.bind, throw, throwThe,
      MonadExcept.throw, pure, Except.pure]
  · intro hcf
    refine ⟨{ db with template_fcp_mapping := editMapResult db tid devs },
      ?_, ?_⟩
    · unfold edit_fcp_template
      simp [hex, hpc, hmin, hcf, Bind.bind, Except.bind, throw, throwThe,
        MonadExcept.throw, pure, Except.pure]
    · intro d hd m hm hbad
      -- every row of the edited mapping keeps its template id and device id
      simp only [editMapResult, List.mem_map] at hm
      obtain ⟨m0, hm0, hupd⟩ := hm
      have hkeep : m.tmpl_id = m0.tmpl_id ∧ m.fcp_id = m0.fcp_id := by
        refine ⟨?_, ?_⟩ <;> rw [← hupd] <;> (repeat' split) <;> rfl
      rw [List.mem_append] at hm0
      have hmt0 : m0.tmpl_id = tid := hkeep.1 ▸ hbad.1
      have hmf0 : m0.fcp_id = d := hkeep.2 ▸ hbad.2
      rcases hm0 with hdel' | hins
      · rw [List.mem_filter] at hdel'
        have hno := hdel'.2
        rw [decide_eq_true_iff] at hno
        apply hno
        refine ⟨hmt0, ?_⟩
        rw [hcontains, hmf0]
        exact hd
      · rw [List.mem_filterMap] at hins
        obtain ⟨d', hd'mem, hd'eq⟩ := hins
        cases hl : lookupLast (devs.flatMap (fun pd =>
            pd.2.map (fun fcp_id => (fcp_id, pd.1)))) d' with
        | none => rw [hl] at hd'eq; cases hd'eq
        | some p =>
          rw [hl] at hd'eq
          simp only [Option.map_some'] at hd'eq
          cases hd'eq
          -- d is simultaneously in the new device list and omitted from it
          rw [List.mem_filter] at hd'mem
          have hd'in : d' ∈ (devs.flatMap (fun pd => pd.2)).dedup :=
            hd'mem.1
          unfold editDelSet at hd
          rw [List.mem_filter] at hd
          have hnotin := hd.2
          rw [decide_eq_true_iff] at hnotin
          have : (d' : String) = d := hmf0
          subst this
          exact hnotin ((hcontains _ _).mpr hd'in)

/-- C8 witness: `C8_edit_same_template_check` on `dbC8`:  dropping `1h01`
(in use, but allocated from `t9`) from template `t8` succeeds and removes its
`t8` mapping row, while dropping the same device from template `t9` — whose
provenance it carries — is rejected with `Conflict`. -/
theorem C8_witness :
    (∃ db', edit_fcp_template dbC8 "t8" none none (some [(0, ["1h00"])])
        none none none = .ok db' ∧
      ∀ d ∈ editDelSet dbC8 "t8" [(0, ["1h00"])],
        ∀ m ∈ db'.template_fcp_mapping,
          ¬ (m.tmpl_id = "t8" ∧ m.fcp_id = d)) ∧
    edit_fcp_template dbC8 "t9" none none (some [(0, ["1h99"])])
        none none none = .error (.conflict 24) :=
  ⟨(C8_edit_same_template_check dbC8 "t8" [(0, ["1h00"])] (by decide)
      (by decide) (by decide) (by rfl)).2.2 (by decide),
   (C8_edit_same_template_check dbC8 "t9" [(0, ["1h99"])] (by decide)
      (by decide) (by decide) (by rfl)).2.1 (by decide)⟩

theorem pyMin_mem [LinearOrder α] (d : α) (l : List α) (hl : l ≠ []) :
    pyMin d l ∈ l := by
  have hgen : ∀ (t : List α) (a : α), t.foldl min a = a ∨ t.foldl min a ∈ t := by
    intro t
    induction t with
    | nil => exact fun a => Or.inl rfl
    | cons x s ih =>
      intro a
      rcases ih (min a x) with h | h
      · rcases min_choice a x with hm | hm
        · exact Or.inl (by rw [List.foldl_cons, h, hm])
        · exact Or.inr (by
            rw [List.foldl_cons, h, hm]
            exact List.mem_cons_self x s)
      · exact Or.inr (List.mem_cons_of_mem x h)
  rcases hgen l (l.headD d) with h | h
  · rw [pyMin, h]
    cases l with
    | nil => exact absurd rfl hl
    | cons x t => exact List.mem_cons_self x t
  · exact h

theorem getD_mem_of_ne_nil (l : List α) (i : Nat) (d : α) (hl : l ≠ []) :
    l.getD (i % l.length) d ∈ l := by
  have hlen : 0 < l.length := List.length_pos.mpr hl
  have hmod : i % l.length < l.length := Nat.mod_lt i hlen
  rw [List.getD_eq_getElem l d hmod]
  exact List.getElem_mem hmod

theorem mem_pyProduct {ls : List (List α)} {xs : List α} :
    xs ∈ pyProduct ls ↔ List.Forall₂ (fun x l => x ∈ l) xs ls := by
  induction ls generalizing xs with
  | nil =>
    simp only [pyProduct, List.mem_singleton]
    constructor
    · rintro rfl
      exact List.Forall₂.nil
    · intro h
      cases h
      rfl
  | cons l ls ih =>
    simp only [pyProduct, List.mem_flatMap, List.mem_map]
    constructor
    · rintro ⟨x, hx, t, ht, rfl⟩
      exact List.Forall₂.cons hx (ih.mp ht)
    · intro h
      cases h with
      | cons hx ht => exact ⟨_, hx, _, ih.mpr ht, rfl⟩

theorem mem_combosAt {freePP : List (Nat × List String)} {k : Nat}
    {c : List (Nat × String)} (hc : c ∈ combosAt freePP k) :
    c.length = k ∧
    List.Sublist (c.map (fun pp => pp.1)) (freePP.map (fun e => e.1)) ∧
    ∀ pp ∈ c, ∃ e ∈ freePP, pp.1 = e.1 ∧ pp.2 ∈ e.2 := by
  unfold combosAt at hc
  rw [List.mem_flatMap] at hc
  obtain ⟨subset, hsub, hc⟩ := hc
  rw [List.mem_sublistsLen] at hsub
  obtain ⟨hsl, hlen⟩ := hsub
  rw [List.mem_map] at hc
  obtain ⟨pchs, hpchs, rfl⟩ := hc
  rw [mem_pyProduct] at hpchs
  have hplen : pchs.length = subset.length := by
    have := hpchs.length_eq
    simpa using this
  have hzlen : ((subset.map (fun pr => pr.1)).zip pchs).length = k := by
    rw [List.length_zip, List.length_map, hplen, hlen, Nat.min_self]
  refine ⟨hzlen, ?_, ?_⟩
  · have hmapfst : (((subset.map (fun pr => pr.1)).zip pchs).map
        (fun pp => pp.1)) = subset.map (fun pr => pr.1) := by
      apply List.map_fst_zip
      rw [List.length_map, hplen]
    rw [hmapfst]
    exact hsl.map (fun pr => pr.1)
  · intro pp hpp
    obtain ⟨i, hi⟩ := List.mem_iff_get.mp hpp
    have hilt : (i : Nat) < subset.length := by
      have h2 := i.isLt
      simp only [List.length_zip, List.length_map, hplen, Nat.min_self] at h2
      exact h2
    have hget := @List.get_zip Nat String (subset.map (fun pr => pr.1))
      pchs i
    refine ⟨subset.get ⟨i, hilt⟩, hsl.subset (subset.get_mem _ _), ?_, ?_⟩
    · rw [← hi, hget]
      simp [List.get_map]
    · rw [← hi, hget]
      have hmemi := (List.forall₂_iff_get.mp hpchs).2 i
        (by rw [hplen]; exact hilt)
        (by rw [List.length_map]; exact hilt)
      simpa [List.get_map] using hmemi

theorem map_fst_pairing (f : Nat → List String) (paths : List Nat) :
    ((paths.map (fun p => (p, f p))).map (fun e : Nat × List String => e.1))
      = paths := by
  induction paths with
  | nil => rfl
  | cons p t ih => simp only [List.map_cons, ih]

theorem freePP_fst_nodup (db : DB) (tid : String) :
    ((get_free_pchids_by_fcp_template db tid).map (fun e => e.1)).Nodup := by
  simp only [get_free_pchids_by_fcp_template]
  rw [map_fst_pairing]
  exact ((sortWith_perm _ _).nodup_iff).mpr (List.nodup_dedup _)

theorem freePP_mem_spec (db : DB) (tid : String) :
    ∀ e ∈ get_free_pchids_by_fcp_template db tid, ∀ pch ∈ e.2,
      ∃ r ∈ tmplRows db tid, freeCondFull r.2 = true ∧ r.1.path = e.1 ∧
        pyUpper r.2.pchid = pch := by
  intro e he pch hpch
  simp only [get_free_pchids_by_fcp_template, List.mem_map] at he
  obtain ⟨p, _, rfl⟩ := he
  rw [mem_sortWith] at hpch
  rw [List.mem_map] at hpch
  obtain ⟨pair, hpairm, hpair2⟩ := hpch
  rw [List.mem_filter] at hpairm
  obtain ⟨hpairmem, hpair1⟩ := hpairm
  rw [List.mem_dedup, List.mem_map] at hpairmem
  obtain ⟨r, hrm, hrpair⟩ := hpairmem
  rw [List.mem_filter] at hrm
  refine ⟨r, hrm.1, hrm.2, ?_, ?_⟩
  · have h1 : pair.1 = p := of_decide_eq_true hpair1
    rw [← hrpair] at h1
    exact h1
  · rw [← hpair2, ← hrpair]

theorem freePP_snd_ne_nil (db : DB) (tid : String) :
    ∀ e ∈ get_free_pchids_by_fcp_template db tid, e.2 ≠ [] := by
  intro e he
  simp only [get_free_pchids_by_fcp_template, List.mem_map] at he
  obtain ⟨p, hp, rfl⟩ := he
  rw [mem_sortWith, List.mem_dedup, List.mem_map] at hp
  obtain ⟨pair, hpairm, hpair1⟩ := hp
  intro hnil
  dsimp only at hnil
  exact List.ne_nil_of_mem (a := pair.2) (by
    rw [mem_sortWith, List.mem_map]
    exact ⟨pair, List.mem_filter.mpr ⟨hpairm, decide_eq_true hpair1⟩,
      rfl⟩) hnil

theorem mem_survivorsAtK {pi : String → Cap}
    {freePP : List (Nat × List String)} {k : Nat}
    {cw : List (Nat × String) × ℚ} :
    cw ∈ survivorsAtK pi freePP k ↔
      cw.1 ∈ combosAt freePP k ∧
      cw.2 = combWeightQ pi (cw.1.map (fun pp => pp.2)) ∧ ¬ cw.2 < 1 := by
  unfold survivorsAtK
  rw [List.mem_filter, List.mem_map]
  constructor
  · rintro ⟨⟨c, hc, rfl⟩, hw⟩
    refine ⟨hc, rfl, ?_⟩
    simpa using hw
  · obtain ⟨c, w⟩ := cw
    rintro ⟨hc, hw2, hnl⟩
    simp only at hw2
    subst hw2
    exact ⟨⟨c, hc, rfl⟩, by simpa using hnl⟩

theorem filter_eq_max_ne_nil [LinearOrder β] [DecidableEq β] (l : List α)
    (f : α → β) (d : β) (hl : l ≠ []) :
    l.filter (fun x => f x == pyMax d (l.map f)) ≠ [] := by
  have hmap : l.map f ≠ [] := by
    intro h
    exact hl (List.map_eq_nil_iff.mp h)
  have hmem := pyMax_mem d (l.map f) hmap
  rw [List.mem_map] at hmem
  obtain ⟨x, hx, hfx⟩ := hmem
  apply List.ne_nil_of_mem (a := x)
  rw [List.mem_filter]
  exact ⟨hx, by rw [hfx, beq_self_eq_true]⟩

theorem finalCombAtK_spec (pi : String → Cap)
    (freePP : List (Nat × List String)) (k : Nat) (cc : Nat)
    (hs : survivorsAtK pi freePP k ≠ []) :
    finalCombAtK pi freePP k cc ∈ combosAt freePP k ∧
    ¬ combWeightQ pi
      ((finalCombAtK pi freePP k cc).map (fun pp => pp.2)) < 1 ∧
    (∀ cw ∈ survivorsAtK pi freePP k,
      cw.2 ≤ combWeightQ pi
        ((finalCombAtK pi freePP k cc).map (fun pp => pp.2))) ∧
    (∀ cw ∈ survivorsAtK pi freePP k,
      cw.2 = combWeightQ pi
        ((finalCombAtK pi freePP k cc).map (fun pp => pp.2)) →
      distinctPchids cw.1 ≤ distinctPchids (finalCombAtK pi freePP k cc)) := by
  have hs2 : (survivorsAtK pi freePP k).filter
      (fun cw => cw.2 == pyMax 0 ((survivorsAtK pi freePP k).map
        (fun cw => cw.2))) ≠ [] := by
    have := filter_eq_max_ne_nil (survivorsAtK pi freePP k)
      (fun cw => cw.2) 0 hs
    exact this
  have hs3 : (((survivorsAtK pi freePP k).filter
      (fun cw => cw.2 == pyMax 0 ((survivorsAtK pi freePP k).map
        (fun cw => cw.2)))).map (fun cw => cw.1)) ≠ [] := by
    intro h
    exact hs2 (List.map_eq_nil_iff.mp h)
  have hs4 := filter_eq_max_ne_nil _ distinctPchids 0 hs3
  have hfinal_mem : finalCombAtK pi freePP k cc ∈
      ((((survivorsAtK pi freePP k).filter
        (fun cw => cw.2 == pyMax 0 ((survivorsAtK pi freePP k).map
          (fun cw => cw.2)))).map (fun cw => cw.1)).filter
        (fun c => distinctPchids c == pyMax 0
          (((((survivorsAtK pi freePP k).filter
            (fun cw => cw.2 == pyMax 0 ((survivorsAtK pi freePP k).map
              (fun cw => cw.2)))).map (fun cw => cw.1)).map
                distinctPchids)))) := by
    simp only [finalCombAtK]
    exact getD_mem_of_ne_nil _ _ _ hs4
  rw [List.mem_filter] at hfinal_mem
  obtain ⟨hf3, hfD⟩ := hfinal_mem
  rw [List.mem_map] at hf3
  obtain ⟨cwf, hcwf2, hcwf1⟩ := hf3
  rw [List.mem_filter] at hcwf2
  obtain ⟨hcwfS, hcwfW⟩ := hcwf2
  rw [beq_iff_eq] at hcwfW hfD
  have hspec := mem_survivorsAtK.mp hcwfS
  obtain ⟨hcomb, hweq, hnl⟩ := hspec
  rw [hcwf1] at hcomb hweq
  have hwfinal : combWeightQ pi
      ((finalCombAtK pi freePP k cc).map (fun pp => pp.2)) = cwf.2 :=
    hweq.symm
  refine ⟨hcomb, ?_, ?_, ?_⟩
  · rw [hwfinal]
    exact hnl
  · intro cw hcw
    rw [hwfinal, hcwfW]
    exact le_pyMax 0 _ _ (List.mem_map_of_mem (fun cw => cw.2) hcw)
  · intro cw hcw hweq2
    rw [hwfinal] at hweq2
    have hcwS2 : cw ∈ (survivorsAtK pi freePP k).filter
        (fun cw => cw.2 == pyMax 0 ((survivorsAtK pi freePP k).map
          (fun cw => cw.2))) := by
      rw [List.mem_filter]
      exact ⟨hcw, by rw [beq_iff_eq, hweq2, ← hcwfW]⟩
    rw [hfD]
    apply le_pyMax
    rw [List.map_map]
    exact List.mem_map_of_mem _ hcwS2

theorem get_one_random_spec (db : DB) (tid : String)
    (comb : List (Nat × String)) (dc : Nat → Nat)
    (hnodup : (comb.map (fun pp => pp.1)).Nodup)
    (hwit : ∀ pp ∈ comb, ∃ r ∈ tmplRows db tid, freeCondFull r.2 = true ∧
      r.1.path = pp.1 ∧ pyUpper r.2.pchid = pp.2) :
    (get_one_random_fcp_combinations db tid comb dc).map
      (fun s => (s.path, s.pchid)) = comb := by
  unfold get_one_random_fcp_combinations
  rw [List.map_map]
  have hpt : ∀ pp ∈ comb,
      ((fun s : FcpSel => (s.path, s.pchid)) ∘ (fun pp : Nat × String =>
        let bucket := ((sortWith lePathPchidFcpId
          ((tmplRows db tid).filter (fun r =>
            freeCondFull r.2 && comb.any (fun pp2 =>
              r.1.path == pp2.1 && pyUpper r.2.pchid == pp2.2)))).filter
                (fun r => r.1.path == pp.1)).map (fun r =>
          FcpSel.mk (pyUpper r.2.fcp_id) r.2.wwpn_npiv r.2.wwpn_phy r.1.path
            (pyUpper r.2.pchid))
        bucket.getD (dc pp.1 % bucket.length) (FcpSel.mk "" "" "" 0 "")))
        pp = pp := by
    intro pp hpp
    obtain ⟨r, hrm, hrc, hrp, hrpch⟩ := hwit pp hpp
    simp only [Function.comp]
    have hrfilter : r ∈ (tmplRows db tid).filter (fun r =>
        freeCondFull r.2 && comb.any (fun pp2 =>
          r.1.path == pp2.1 && pyUpper r.2.pchid == pp2.2)) := by
      rw [List.mem_filter]
      refine ⟨hrm, ?_⟩
      rw [Bool.and_eq_true]
      refine ⟨hrc, ?_⟩
      rw [List.any_eq_true]
      exact ⟨pp, hpp, by
        rw [Bool.and_eq_true, beq_iff_eq, beq_iff_eq]
        exact ⟨hrp, hrpch⟩⟩
    have hbucket_ne : (((sortWith lePathPchidFcpId
        ((tmplRows db tid).filter (fun r =>
          freeCondFull r.2 && comb.any (fun pp2 =>
            r.1.path == pp2.1 && pyUpper r.2.pchid == pp2.2)))).filter
              (fun r => r.1.path == pp.1)).map (fun r =>
        FcpSel.mk (pyUpper r.2.fcp_id) r.2.wwpn_npiv r.2.wwpn_phy r.1.path
          (pyUpper r.2.pchid))) ≠ [] := by
      apply List.ne_nil_of_mem (a := FcpSel.mk (pyUpper r.2.fcp_id)
        r.2.wwpn_npiv r.2.wwpn_phy r.1.path (pyUpper r.2.pchid))
      apply List.mem_map_of_mem
      rw [List.mem_filter, mem_sortWith]
      exact ⟨hrfilter, by rw [beq_iff_eq]; exact hrp⟩
    have hchosen := getD_mem_of_ne_nil _ (dc pp.1) (FcpSel.mk "" "" "" 0 "")
      hbucket_ne
    set chosen := (((sortWith lePathPchidFcpId
        ((tmplRows db tid).filter (fun r =>
          freeCondFull r.2 && comb.any (fun pp2 =>
            r.1.path == pp2.1 && pyUpper r.2.pchid == pp2.2)))).filter
              (fun r => r.1.path == pp.1)).map (fun r =>
        FcpSel.mk (pyUpper r.2.fcp_id) r.2.wwpn_npiv r.2.wwpn_phy r.1.path
          (pyUpper r.2.pchid))).getD (dc pp.1 % (((sortWith lePathPchidFcpId
        ((tmplRows db tid).filter (fun r =>
          freeCondFull r.2 && comb.any (fun pp2 =>
            r.1.path == pp2.1 && pyUpper r.2.pchid == pp2.2)))).filter
              (fun r => r.1.path == pp.1)).map (fun r =>
        FcpSel.mk (pyUpper r.2.fcp_id) r.2.wwpn_npiv r.2.wwpn_phy r.1.path
          (pyUpper r.2.pchid))).length) (FcpSel.mk "" "" "" 0 "") with hcdef
    rw [List.mem_map] at hchosen
    obtain ⟨r2, hr2m, hr2sel⟩ := hchosen
    rw [List.mem_filter, mem_sortWith] at hr2m
    obtain ⟨hr2f, hr2p⟩ := hr2m
    rw [List.mem_filter] at hr2f
    obtain ⟨hr2rows, hr2cond⟩ := hr2f
    rw [Bool.and_eq_true, List.any_eq_true] at hr2cond
    obtain ⟨_, pp2, hpp2, hcond2⟩ := hr2cond
    rw [Bool.and_eq_true, beq_iff_eq, beq_iff_eq] at hcond2
    rw [beq_iff_eq] at hr2p
    have hppeq : pp2 = pp :=
      List.inj_on_of_nodup_map hnodup hpp2 hpp (by
        rw [← hcond2.1, hr2p])
    show ((chosen).path, (chosen).pchid) = pp
    rw [← hr2sel]
    simp only
    rw [hr2p, hcond2.2, hppeq]
  calc comb.map _ = comb.map id := List.map_congr_left hpt
  _ = comb := List.map_id comb

theorem tryKs_cons_ne (db : DB) (tid : String) (pi : String → Cap)
    (freePP : List (Nat × List String)) (cc : Nat) (dc : Nat → Nat)
    (k : Int) (rest : List Int)
    (hs : survivorsAtK pi freePP k.toNat ≠ []) :
    tryKs db tid pi freePP cc dc (k :: rest) =
      (get_one_random_fcp_combinations db tid
        (finalCombAtK pi freePP k.toNat cc) dc,
       badAtK pi freePP k.toNat) := by
  unfold tryKs
  rw [if_neg hs]

theorem tryKs_cons_eq (db : DB) (tid : String) (pi : String → Cap)
    (freePP : List (Nat × List String)) (cc : Nat) (dc : Nat → Nat)
    (k k2 : Int) (r2 : List Int)
    (hs : survivorsAtK pi freePP k.toNat = []) :
    tryKs db tid pi freePP cc dc (k :: k2 :: r2) =
      tryKs db tid pi freePP cc dc (k2 :: r2) := by
  unfold tryKs
  rw [if_pos hs]
  rfl

theorem tryKs_singleton_eq (db : DB) (tid : String) (pi : String → Cap)
    (freePP : List (Nat × List String)) (cc : Nat) (dc : Nat → Nat)
    (k : Int) (hs : survivorsAtK pi freePP k.toNat = []) :
    tryKs db tid pi freePP cc dc [k] = ([], badAtK pi freePP k.toNat) := by
  unfold tryKs
  rw [if_pos hs]

theorem tryKs_first_success (db : DB) (tid : String) (pi : String → Cap)
    (freePP : List (Nat × List String)) (cc : Nat) (dc : Nat → Nat) :
    ∀ ks, (tryKs db tid pi freePP cc dc ks).1 ≠ [] →
      ∃ k ∈ ks, survivorsAtK pi freePP k.toNat ≠ [] ∧
        (tryKs db tid pi freePP cc dc ks).1 =
          get_one_random_fcp_combinations db tid
            (finalCombAtK pi freePP k.toNat cc) dc := by
  intro ks
  induction ks with
  | nil =>
    intro h
    exact absurd rfl h
  | cons k rest ih =>
    intro h
    by_cases hs : survivorsAtK pi freePP k.toNat = []
    · cases rest with
      | nil =>
        rw [tryKs_singleton_eq db tid pi freePP cc dc k hs] at h
        exact absurd rfl h
      | cons k2 r2 =>
        rw [tryKs_cons_eq db tid pi freePP cc dc k k2 r2 hs] at h ⊢
        obtain ⟨k', hk', hsk', heq⟩ := ih h
        exact ⟨k', List.mem_cons_of_mem k hk', hsk', heq⟩
    · rw [tryKs_cons_ne db tid pi freePP cc dc k rest hs]
      exact ⟨k, List.mem_cons_self k rest, hs, rfl⟩

theorem tryKs_all_empty (db : DB) (tid : String) (pi : String → Cap)
    (freePP : List (Nat × List String)) (cc : Nat) (dc : Nat → Nat) :
    ∀ ks last, ks.getLast? = some last →
      (∀ k ∈ ks, survivorsAtK pi freePP k.toNat = []) →
      tryKs db tid pi freePP cc dc ks =
        ([], badAtK pi freePP last.toNat) := by
  intro ks
  induction ks with
  | nil =>
    intro last hlast
    cases hlast
  | cons k rest ih =>
    intro last hlast hall
    cases rest with
    | nil =>
      rw [List.getLast?_singleton] at hlast
      cases hlast
      exact tryKs_singleton_eq db tid pi freePP cc dc k
        (hall k (List.mem_cons_self k []))
    | cons k2 r2 =>
      rw [tryKs_cons_eq db tid pi freePP cc dc k k2 r2
        (hall k (List.mem_cons_self k _))]
      apply ih
      · rw [List.getLast?_cons_cons] at hlast
        exact hlast
      · intro x hx
        exact hall x (List.mem_cons_of_mem k hx)

theorem descRange_getLast? (hi lo : Int) (h : lo ≤ hi) :
    (descRange hi lo).getLast? = some lo := by
  unfold descRange
  obtain ⟨m, hm⟩ : ∃ m, (hi - lo + 1).toNat = m + 1 :=
    ⟨(hi - lo + 1).toNat - 1, by omega⟩
  rw [hm, List.range_succ, List.map_append]
  rw [List.map_singleton, List.getLast?_concat]
  congr 1
  omega

theorem descRange_ne_nil (hi lo : Int) (h : lo ≤ hi) :
    descRange hi lo ≠ [] := by
  intro hc
  have := descRange_getLast? hi lo h
  rw [hc] at this
  cases this

theorem descRange_get? (hi lo : Int) (i : Nat)
    (hi2 : i < (descRange hi lo).length) :
    (descRange hi lo).get? i = some (hi - i) := by
  unfold descRange at *
  rw [List.get?_map]
  rw [List.length_map, List.length_range] at hi2
  rw [List.get?_range hi2]
  rfl

theorem descRange_length (hi lo : Int) :
    (descRange hi lo).length = (hi - lo + 1).toNat := by
  unfold descRange
  rw [List.length_map, List.length_range]

theorem get_fcp_devices_eq_tryKs (db : DB) (tid : String) (pi : String → Cap)
    (cc : Nat) (dc : Nat → Nat) (minC : Int)
    (hfree : get_free_pchids_by_fcp_template db tid ≠ [])
    (hmin : get_min_fcp_paths_count db tid = .ok minC)
    (hge : ¬ ((get_free_pchids_by_fcp_template db tid).length : Int) < minC) :
    get_fcp_devices db tid pi cc dc =
      (if (tryKs db tid pi (get_free_pchids_by_fcp_template db tid) cc dc
            (descRange ((get_free_pchids_by_fcp_template db tid).length : Int)
              minC)).1 = [] then
        .ok ([], reasonCapacity (sortBadPairs
          (tryKs db tid pi (get_free_pchids_by_fcp_template db tid) cc dc
            (descRange ((get_free_pchids_by_fcp_template db tid).length : Int)
              minC)).2) tid)
      else
        .ok ((tryKs db tid pi (get_free_pchids_by_fcp_template db tid) cc dc
          (descRange ((get_free_pchids_by_fcp_template db tid).length : Int)
            minC)).1, "")) := by
  unfold get_fcp_devices
  rw [if_neg hfree, hmin]
  dsimp only
  rw [if_neg hge]

theorem pyProduct_ne_nil (ls : List (List String))
    (h : ∀ l ∈ ls, l ≠ []) : pyProduct ls ≠ [] := by
  apply List.ne_nil_of_mem (a := ls.map (fun l => l.headD ""))
  rw [mem_pyProduct, List.forall₂_iff_get]
  refine ⟨by rw [List.length_map], ?_⟩
  intro i h1 h2
  rw [List.get_map]
  have hne := h (ls.get ⟨i, h2⟩) (ls.get_mem _ _)
  cases hl : ls.get ⟨i, h2⟩ with
  | nil => exact absurd hl hne
  | cons x t => exact List.mem_cons_self x t

theorem combosAt_ne_nil (freePP : List (Nat × List String)) (k : Nat)
    (hk : k ≤ freePP.length) (hsnd : ∀ e ∈ freePP, e.2 ≠ []) :
    combosAt freePP k ≠ [] := by
  have hsub : freePP.take k ∈ List.sublistsLen k freePP := by
    rw [List.mem_sublistsLen]
    exact ⟨List.take_sublist k freePP, by rw [List.length_take]; omega⟩
  have hprod := pyProduct_ne_nil ((freePP.take k).map (fun pr => pr.2))
    (by
      intro l hl
      rw [List.mem_map] at hl
      obtain ⟨e, he, rfl⟩ := hl
      exact hsnd e ((List.take_sublist k freePP).subset he))
  obtain ⟨pchs, hpchs⟩ := List.exists_mem_of_ne_nil _ hprod
  apply List.ne_nil_of_mem
    (a := ((freePP.take k).map (fun pr => pr.1)).zip pchs)
  unfold combosAt
  rw [List.mem_flatMap]
  exact ⟨freePP.take k, hsub, List.mem_map_of_mem _ hpchs⟩

theorem badOf_ne_nil (pi : String → Cap) (pchids : List String)
    (hne : pchids ≠ []) (hw : combWeightQ pi pchids < 1) :
    badOf pi pchids ≠ [] := by
  have hwne : (pchidWeights pi pchids).map (fun pw => pw.2) ≠ [] := by
    intro h
    rw [List.map_eq_nil_iff] at h
    unfold pchidWeights at h
    rw [List.map_eq_nil_iff] at h
    exact hne ((List.dedup_eq_nil _).mp h)
  have hmem := pyMin_mem 0 _ hwne
  rw [List.mem_map] at hmem
  obtain ⟨pw, hpwm, hpw2⟩ := hmem
  apply List.ne_nil_of_mem (a := (pw.1, freeCount pi pw.1))
  unfold badOf
  rw [List.mem_filterMap]
  refine ⟨pw, hpwm, ?_⟩
  rw [if_pos]
  rw [hpw2]
  exact hw

theorem upsertBad_ne_nil (acc : List (String × Int)) (kv : String × Int) :
    upsertBad acc kv ≠ [] := by
  unfold upsertBad
  by_cases h : acc.any (fun e => e.1 = kv.1)
  · rw [if_pos h]
    intro hc
    rw [List.map_eq_nil_iff] at hc
    subst hc
    simp at h
  · rw [if_neg h]
    intro hc
    have := congrArg List.length hc
    simp at this

theorem foldl_upsert_ne_nil (l : List (String × Int))
    (acc : List (String × Int)) (h : acc ≠ []) :
    l.foldl upsertBad acc ≠ [] := by
  induction l generalizing acc with
  | nil => exact h
  | cons x t ih => exact ih (upsertBad acc x) (upsertBad_ne_nil acc x)

theorem accBad_preserves_ne_nil (pi : String → Cap)
    (combs : List (List String)) (init : List (String × Int))
    (h : init ≠ []) : accBad pi combs init ≠ [] := by
  induction combs generalizing init with
  | nil => exact h
  | cons c t ih =>
    exact ih _ (foldl_upsert_ne_nil _ init h)

theorem accBad_ne_nil (pi : String → Cap) (combs : List (List String))
    (init : List (String × Int))
    (h : ∃ c ∈ combs, badOf pi c ≠ []) : accBad pi combs init ≠ [] := by
  induction combs generalizing init with
  | nil =>
    obtain ⟨c, hc, _⟩ := h
    cases hc
  | cons c0 t ih =>
    by_cases h0 : badOf pi c0 = []
    · obtain ⟨c, hc, hcb⟩ := h
      rcases List.mem_cons.mp hc with rfl | hct
      · exact absurd h0 hcb
      · unfold accBad
        rw [List.foldl_cons]
        exact ih _ ⟨c, hct, hcb⟩
    · unfold accBad
      rw [List.foldl_cons]
      apply accBad_preserves_ne_nil
      cases hb : badOf pi c0 with
      | nil => exact absurd hb h0
      | cons b bt =>
        rw [List.foldl_cons]
        exact foldl_upsert_ne_nil bt _ (upsertBad_ne_nil init b)

/-- C3: Strategy B (`get_fcp_devices`) never returns a device combination
whose minimum per-physical-channel-group weight — free capacity of the group
divided by the number of times the group is used among the returned devices —
is below 1; and when every candidate PCHID combination has some group of
weight below 1, it returns an empty list together with the non-empty
capacity diagnostic built from the non-empty set of under-capacity groups. -/
theorem C3_weight_rule (db : DB) (tid : String) (pi : String → Cap)
    (cc : Nat) (dc : Nat → Nat) (minC : Int)
    (hmin : get_min_fcp_paths_count db tid = .ok minC) :
    (∀ fcps reason,
      get_fcp_devices db tid pi cc dc = .ok (fcps, reason) → fcps ≠ [] →
      ∀ p ∈ fcps.map (fun s => s.pchid),
        1 ≤ Rat.divInt (freeCount pi p)
          (((fcps.map (fun s => s.pchid)).count p : Int))) ∧
    ((∀ k : Nat, ∀ c ∈ combosAt (get_free_pchids_by_fcp_template db tid) k,
        combWeightQ pi (c.map (fun pp => pp.2)) < 1) →
      get_free_pchids_by_fcp_template db tid ≠ [] →
      ¬ ((get_free_pchids_by_fcp_template db tid).length : Int) < minC →
      1 ≤ minC →
      ∃ bad, bad ≠ [] ∧
        get_fcp_devices db tid pi cc dc =
          .ok ([], reasonCapacity (sortBadPairs bad) tid) ∧
        reasonCapacity (sortBadPairs bad) tid ≠ "") := by
  constructor
  · intro fcps reason hok hne p hp
    by_cases hfree : get_free_pchids_by_fcp_template db tid = []
    · unfold get_fcp_devices at hok
      rw [if_pos hfree] at hok
      injection hok with hok2
      injection hok2 with hok3
      exact absurd hok3.symm hne
    · by_cases hge :
          ((get_free_pchids_by_fcp_template db tid).length : Int) < minC
      · unfold get_fcp_devices at hok
        rw [if_neg hfree, hmin] at hok
        dsimp only at hok
        rw [if_pos hge] at hok
        injection hok with hok2
        injection hok2 with hok3
        exact absurd hok3.symm hne
      · rw [get_fcp_devices_eq_tryKs db tid pi cc dc minC hfree hmin hge]
          at hok
        by_cases hres : (tryKs db tid pi
            (get_free_pchids_by_fcp_template db tid) cc dc
            (descRange ((get_free_pchids_by_fcp_template db tid).length :
              Int) minC)).1 = []
        · rw [if_pos hres] at hok
          injection hok with hok2
          injection hok2 with hok3
          exact absurd hok3.symm hne
        · rw [if_neg hres] at hok
          injection hok with hok2
          injection hok2 with hok3
          obtain ⟨k, hk, hs, heq⟩ := tryKs_first_success db tid pi
            (get_free_pchids_by_fcp_template db tid) cc dc _ hres
          have hspec := finalCombAtK_spec pi
            (get_free_pchids_by_fcp_template db tid) k.toNat cc hs
          obtain ⟨hcomb, hwge, _, _⟩ := hspec
          obtain ⟨hlen, hsl, hwit⟩ := mem_combosAt hcomb
          have hnodup : ((finalCombAtK pi
              (get_free_pchids_by_fcp_template db tid) k.toNat cc).map
                (fun pp => pp.1)).Nodup :=
            hsl.nodup (freePP_fst_nodup db tid)
          have hwit2 : ∀ pp ∈ finalCombAtK pi
              (get_free_pchids_by_fcp_template db tid) k.toNat cc,
              ∃ r ∈ tmplRows db tid, freeCondFull r.2 = true ∧
                r.1.path = pp.1 ∧ pyUpper r.2.pchid = pp.2 := by
            intro pp hpp
            obtain ⟨e, he, hpe, hpche⟩ := hwit pp hpp
            obtain ⟨r, hr, hrc, hrp, hrpch⟩ :=
              freePP_mem_spec db tid e he pp.2 hpche
            exact ⟨r, hr, hrc, by rw [hrp, hpe], hrpch⟩
          have hros := get_one_random_spec db tid _ dc hnodup hwit2
          rw [← heq] at hros
          have hfcps : fcps = (tryKs db tid pi
              (get_free_pchids_by_fcp_template db tid) cc dc
              (descRange ((get_free_pchids_by_fcp_template db tid).length :
                Int) minC)).1 := hok3.symm
          have hpchids : fcps.map (fun s => s.pchid) =
              (finalCombAtK pi (get_free_pchids_by_fcp_template db tid)
                k.toNat cc).map (fun pp => pp.2) := by
            have h2 := congrArg (List.map (fun pp : Nat × String => pp.2))
              hros
            rw [List.map_map] at h2
            rw [hfcps]
            exact h2
          rw [hpchids] at hp ⊢
          have hw1 : 1 ≤ combWeightQ pi
              ((finalCombAtK pi (get_free_pchids_by_fcp_template db tid)
                k.toNat cc).map (fun pp => pp.2)) := not_lt.mp hwge
          have hentry : (p, Rat.divInt (freeCount pi p)
              ((((finalCombAtK pi (get_free_pchids_by_fcp_template db tid)
                k.toNat cc).map (fun pp => pp.2)).count p : Int))) ∈
              pchidWeights pi ((finalCombAtK pi
                (get_free_pchids_by_fcp_template db tid) k.toNat cc).map
                  (fun pp => pp.2)) := by
            unfold pchidWeights
            apply List.mem_map_of_mem
            rw [List.mem_dedup]
            exact hp
          have hminle := pyMin_le 0 _ _
            (List.mem_map_of_mem (fun pw => pw.2) hentry)
          exact le_trans hw1 hminle
  · intro hall hfree hge hpos
    have hsurv : ∀ (k : Nat),
        survivorsAtK pi (get_free_pchids_by_fcp_template db tid) k = [] := by
      intro k
      unfold survivorsAtK
      rw [List.filter_eq_nil_iff]
      intro cw hcw
      rw [List.mem_map] at hcw
      obtain ⟨c, hc, rfl⟩ := hcw
      intro hcontra
      simp only [Bool.not_eq_eq_eq_not, Bool.not_true, decide_eq_false_iff_not]
        at hcontra
      exact hcontra (hall k c hc)
    have hlast := descRange_getLast?
      ((get_free_pchids_by_fcp_template db tid).length : Int) minC
      (not_lt.mp hge)
    have htry := tryKs_all_empty db tid pi
      (get_free_pchids_by_fcp_template db tid) cc dc _ minC hlast
      (fun k _ => hsurv k.toNat)
    refine ⟨badAtK pi (get_free_pchids_by_fcp_template db tid) minC.toNat,
      ?_, ?_, reasonCapacity_ne_empty _ tid⟩
    · apply accBad_ne_nil
      have hcombne := combosAt_ne_nil (get_free_pchids_by_fcp_template db tid)
        minC.toNat (by omega) (freePP_snd_ne_nil db tid)
      obtain ⟨c, hc⟩ := List.exists_mem_of_ne_nil _ hcombne
      refine ⟨c.map (fun pp => pp.2), List.mem_map_of_mem _ hc, ?_⟩
      apply badOf_ne_nil
      · obtain ⟨hlen, _, _⟩ := mem_combosAt hc
        intro hnil
        rw [List.map_eq_nil_iff] at hnil
        rw [hnil] at hlen
        simp at hlen
        omega
      · exact hall minC.toNat c hc
    · rw [get_fcp_devices_eq_tryKs db tid pi cc dc minC hfree hmin hge]
      rw [htry]
      simp

theorem combWeight_piFull_lt_one (pchids : List String) :
    combWeightQ piFull pchids < 1 := by
  have hz : ∀ x ∈ (pchidWeights piFull pchids).map (fun pw => pw.2),
      x = 0 := by
    intro x hx
    rw [List.mem_map] at hx
    obtain ⟨pw, hpw, rfl⟩ := hx
    unfold pchidWeights at hpw
    rw [List.mem_map] at hpw
    obtain ⟨p, _, rfl⟩ := hpw
    have h0 : freeCount piFull p = 0 := rfl
    simp [h0]
  unfold combWeightQ
  by_cases hmap : (pchidWeights piFull pchids).map (fun pw => pw.2) = []
  · rw [hmap]
    decide
  · have hm := pyMin_mem 0 _ hmap
    have h0 := hz _ hm
    rw [h0]
    decide

set_option maxHeartbeats 4000000 in
set_option maxRecDepth 100000 in
/-- C3 witness: `C3_weight_rule` on `dbB`: with ample capacity the returned
three-device set has every per-group weight at least 1; with every group full
(`piFull`), every candidate combination is under-capacity and selection
returns an empty list with the non-empty capacity diagnostic. -/
theorem C3_witness :
    (1 ≤ Rat.divInt (freeCount piBig "AAAA")
      ((([FcpSel.mk "2A00" "n1" "p1" 0 "AAAA",
          FcpSel.mk "2B00" "n3" "p3" 1 "BBBB",
          FcpSel.mk "2C00" "n4" "p4" 2 "CCCC"].map
            (fun s => s.pchid)).count "AAAA" : Int))) ∧
    (∃ bad, bad ≠ [] ∧
      get_fcp_devices dbB "t2" piFull 0 (fun _ => 0) =
        .ok ([], reasonCapacity (sortBadPairs bad) "t2") ∧
      reasonCapacity (sortBadPairs bad) "t2" ≠ "") :=
  ⟨(C3_weight_rule dbB "t2" piBig 0 (fun _ => 0) 2 (by decide)).1
      [FcpSel.mk "2A00" "n1" "p1" 0 "AAAA",
       FcpSel.mk "2B00" "n3" "p3" 1 "BBBB",
       FcpSel.mk "2C00" "n4" "p4" 2 "CCCC"] "" (by decide) (by decide)
      "AAAA" (by decide),
   (C3_weight_rule dbB "t2" piFull 0 (fun _ => 0) 2 (by decide)).2
      (fun _ c _ => combWeight_piFull_lt_one _)
      (by decide) (by decide) (by decide)⟩

/-- C4: Strategy B tries candidate path counts in strictly descending order
from the free-path count down to the minimum path count (the k-th tried value
is `free - k`, ending at the minimum); at the first path count with a
surviving combination it keeps only combinations of maximum weight, then only
those using the most distinct physical-channel groups, returns exactly one
device per chosen (path, group) pair, and the outcome does not depend on the
remaining smaller path counts. -/
theorem C4_descending_first_fit (db : DB) (tid : String) (pi : String → Cap)
    (cc : Nat) (dc : Nat → Nat) (minC : Int)
    (hmin : get_min_fcp_paths_count db tid = .ok minC)
    (hfree : get_free_pchids_by_fcp_template db tid ≠ [])
    (hge : ¬ ((get_free_pchids_by_fcp_template db tid).length : Int) < minC) :
    (get_fcp_devices db tid pi cc dc =
      (if (tryKs db tid pi (get_free_pchids_by_fcp_template db tid) cc dc
            (descRange ((get_free_pchids_by_fcp_template db tid).length :
              Int) minC)).1 = [] then
        .ok ([], reasonCapacity (sortBadPairs
          (tryKs db tid pi (get_free_pchids_by_fcp_template db tid) cc dc
            (descRange ((get_free_pchids_by_fcp_template db tid).length :
              Int) minC)).2) tid)
      else
        .ok ((tryKs db tid pi (get_free_pchids_by_fcp_template db tid) cc dc
          (descRange ((get_free_pchids_by_fcp_template db tid).length : Int)
            minC)).1, ""))) ∧
    (∀ i, ∀ h : i < (descRange
        ((get_free_pchids_by_fcp_template db tid).length : Int) minC).length,
      (descRange ((get_free_pchids_by_fcp_template db tid).length : Int)
        minC).get? i =
        some (((get_free_pchids_by_fcp_template db tid).length : Int) - i)) ∧
    ((descRange ((get_free_pchids_by_fcp_template db tid).length : Int)
      minC).getLast? = some minC) ∧
    (∀ k rest,
      survivorsAtK pi (get_free_pchids_by_fcp_template db tid) k.toNat ≠ [] →
      tryKs db tid pi (get_free_pchids_by_fcp_template db tid) cc dc
          (k :: rest) =
        (get_one_random_fcp_combinations db tid
          (finalCombAtK pi (get_free_pchids_by_fcp_template db tid)
            k.toNat cc) dc,
         badAtK pi (get_free_pchids_by_fcp_template db tid) k.toNat)) ∧
    (∀ k : Nat,
      survivorsAtK pi (get_free_pchids_by_fcp_template db tid) k ≠ [] →
      finalCombAtK pi (get_free_pchids_by_fcp_template db tid) k cc ∈
        combosAt (get_free_pchids_by_fcp_template db tid) k ∧
      (∀ cw ∈ survivorsAtK pi (get_free_pchids_by_fcp_template db tid) k,
        cw.2 ≤ combWeightQ pi
          ((finalCombAtK pi (get_free_pchids_by_fcp_template db tid)
            k cc).map (fun pp => pp.2))) ∧
      (∀ cw ∈ survivorsAtK pi (get_free_pchids_by_fcp_template db tid) k,
        cw.2 = combWeightQ pi
          ((finalCombAtK pi (get_free_pchids_by_fcp_template db tid)
            k cc).map (fun pp => pp.2)) →
        distinctPchids cw.1 ≤ distinctPchids
          (finalCombAtK pi (get_free_pchids_by_fcp_template db tid) k cc)) ∧
      ((get_one_random_fcp_combinations db tid
          (finalCombAtK pi (get_free_pchids_by_fcp_template db tid) k cc)
          dc).map (fun s => (s.path, s.pchid)) =
        finalCombAtK pi (get_free_pchids_by_fcp_template db tid) k cc) ∧
      (get_one_random_fcp_combinations db tid
        (finalCombAtK pi (get_free_pchids_by_fcp_template db tid) k cc)
        dc).length = k) := by
  refine ⟨get_fcp_devices_eq_tryKs db tid pi cc dc minC hfree hmin hge,
    ?_, ?_, ?_, ?_⟩
  · intro i h
    exact descRange_get? _ minC i h
  · exact descRange_getLast? _ minC (not_lt.mp hge)
  · intro k rest hs
    exact tryKs_cons_ne db tid pi _ cc dc k rest hs
  · intro k hs
    have hspec := finalCombAtK_spec pi
      (get_free_pchids_by_fcp_template db tid) k cc hs
    obtain ⟨hcomb, _, hmax, hdist⟩ := hspec
    obtain ⟨hlen, hsl, hwit⟩ := mem_combosAt hcomb
    have hnodup : ((finalCombAtK pi
        (get_free_pchids_by_fcp_template db tid) k cc).map
          (fun pp => pp.1)).Nodup :=
      hsl.nodup (freePP_fst_nodup db tid)
    have hwit2 : ∀ pp ∈ finalCombAtK pi
        (get_free_pchids_by_fcp_template db tid) k cc,
        ∃ r ∈ tmplRows db tid, freeCondFull r.2 = true ∧
          r.1.path = pp.1 ∧ pyUpper r.2.pchid = pp.2 := by
      intro pp hpp
      obtain ⟨e, he, hpe, hpche⟩ := hwit pp hpp
      obtain ⟨r, hr, hrc, hrp, hrpch⟩ :=
        freePP_mem_spec db tid e he pp.2 hpche
      exact ⟨r, hr, hrc, by rw [hrp, hpe], hrpch⟩
    have hros := get_one_random_spec db tid _ dc hnodup hwit2
    refine ⟨hcomb, hmax, hdist, hros, ?_⟩
    have hl2 := congrArg List.length hros
    rw [List.length_map] at hl2
    rw [hl2]
    exact hlen

set_option maxHeartbeats 4000000 in
set_option maxRecDepth 100000 in
/-- C4 witness: `C4_descending_first_fit` on `dbB` (three free paths, minimum
2): the tried path counts end at 2, and at the first path count 3 — which has
surviving combinations — the loop returns the selected three devices without
depending on the remaining smaller path count. -/
theorem C4_witness :
    ((descRange ((get_free_pchids_by_fcp_template dbB "t2").length : Int)
      2).getLast? = some 2) ∧
    tryKs dbB "t2" piBig (get_free_pchids_by_fcp_template dbB "t2") 0
        (fun _ => 0) ((3 : Int) :: [(2 : Int)]) =
      (get_one_random_fcp_combinations dbB "t2"
        (finalCombAtK piBig (get_free_pchids_by_fcp_template dbB "t2")
          (3 : Int).toNat 0) (fun _ => 0),
       badAtK piBig (get_free_pchids_by_fcp_template dbB "t2")
         (3 : Int).toNat) ∧
    (get_one_random_fcp_combinations dbB "t2"
      (finalCombAtK piBig (get_free_pchids_by_fcp_template dbB "t2") 3 0)
      (fun _ => 0)).length = 3 :=
  ⟨(C4_descending_first_fit dbB "t2" piBig 0 (fun _ => 0) 2 (by decide)
      (by decide) (by decide)).2.2.1,
   (C4_descending_first_fit dbB "t2" piBig 0 (fun _ => 0) 2 (by decide)
      (by decide) (by decide)).2.2.2.1 3 [2] (by decide),
   ((C4_descending_first_fit dbB "t2" piBig 0 (fun _ => 0) 2 (by decide)
      (by decide) (by decide)).2.2.2.2 3 (by decide)).2.2.2.2⟩
